import Mathlib

/-
Verification of the EXACT bus-transit simulator core against its design
specification.  The definitions below are shallow embeddings of the Python
source under busoperation/ (holder.py, terminal.py, stop.py, stop_board.py,
pax_queue.py, link.py, log.py).  Python dicts are modelled as association
lists, floats as rationals, and fallible operations return Except / Option.
-/

namespace EXACT

universe u v

/-- Association-list lookup, modelling a Python dict read (first binding of
the key wins; Python dicts have unique keys, mirrored by Nodup hypotheses
where needed). -/
def lookupAL {κ : Type u} {α : Type v} [DecidableEq κ] (k : κ) : List (κ × α) → Option α
  | [] => none
  | (k1, v) :: rest => if k1 = k then some v else lookupAL k rest

/-- Association-list write, modelling a Python dict assignment: replace the
first binding of the key in place, or append a fresh binding if absent. -/
def updateAL {κ : Type u} {α : Type v} [DecidableEq κ] (k : κ) (v : α) : List (κ × α) → List (κ × α)
  | [] => [(k, v)]
  | (k1, v1) :: rest => if k1 = k then (k, v) :: rest else (k1, v1) :: updateAL k v rest

theorem lookupAL_updateAL_self {κ : Type u} {α : Type v} [DecidableEq κ] (k : κ) (v : α)
    (l : List (κ × α)) : lookupAL k (updateAL k v l) = some v := by
  induction l with
  | nil => simp [lookupAL, updateAL]
  | cons hd tl ih =>
    obtain ⟨k1, v1⟩ := hd
    by_cases h : k1 = k
    · simp [lookupAL, updateAL, h]
    · simp [lookupAL, updateAL, h, ih]

theorem lookupAL_updateAL_ne {κ : Type u} {α : Type v} [DecidableEq κ] {k k0 : κ} (v : α)
    (l : List (κ × α)) (hne : k0 ≠ k) :
    lookupAL k (updateAL k0 v l) = lookupAL k l := by
  induction l with
  | nil => simp [lookupAL, updateAL, hne]
  | cons hd tl ih =>
    obtain ⟨k1, v1⟩ := hd
    by_cases h : k1 = k0
    · subst h
      simp [lookupAL, updateAL, hne]
    · by_cases h2 : k1 = k
      · subst h2
        simp [lookupAL, updateAL, h]
      · simp [lookupAL, updateAL, h, h2, ih]

/- ----------------------------------------------------------------- -/
/- Stop: berth admission and egress discipline (stop.py, stop_board.py) -/
/- ----------------------------------------------------------------- -/

/-- Queue discipline of a stop (stop.py field queue_rule, values FO / FIFO). -/
inductive QueueRule
  | FO
  | FIFO
deriving DecidableEq

/-- Embedding of the FO scan loop of Stop.queue_rule_check_in (stop.py
lines 168-174): iterate b over the berth indices from the last one downward;
an empty berth overwrites the target with b, the first occupied berth breaks
the loop.  The argument of the recursion is the number of indices still to
be visited, so foLoop berths (m+1) target visits index m next. -/
def foLoop {α : Type v} (berths : List (Option α)) : ℕ → Option ℕ → Option ℕ
  | 0, target => target
  | m + 1, target =>
    match berths[m]? with
    | some none => foLoop berths m (some m)
    | _ => target

/-- Embedding of the FIFO scan loop of Stop.queue_rule_check_in (stop.py
lines 176-181): iterate over the berth list from the front, an empty berth
overwrites the target with its index b, the first occupied berth breaks. -/
def fifoLoop {α : Type v} : List (Option α) → ℕ → Option ℕ → Option ℕ
  | [], _, target => target
  | none :: rest, b, _ => fifoLoop rest (b + 1) (some b)
  | some _ :: _, _, target => target

/-- Embedding of Stop.queue_rule_check_in (stop.py lines 157-182): the berth
selected for the bus at the head of the entry queue, or none. -/
def queue_rule_check_in {α : Type v} (rule : QueueRule) (berths : List (Option α)) : Option ℕ :=
  match rule with
  | .FO => foLoop berths berths.length none
  | .FIFO => fifoLoop berths 0 none

/-- Length of the leading run of empty berths of a berth list. -/
def leadingFreeCount {α : Type v} : List (Option α) → ℕ
  | none :: rest => leadingFreeCount rest + 1
  | _ => 0

/-- Length of the trailing run of empty berths of a berth list. -/
def trailingFreeCount {α : Type v} (berths : List (Option α)) : ℕ :=
  leadingFreeCount berths.reverse

/-- Modelled from the claim wording (not the source): the most-upstream free
berth, i.e. the smallest index holding an empty berth. -/
def specMostUpstreamFreeBerth {α : Type v} : List (Option α) → Option ℕ
  | [] => none
  | none :: _ => some 0
  | some _ :: rest => (specMostUpstreamFreeBerth rest).map (· + 1)

/-- Modelled from the claim wording (not the source): the most-downstream free
berth, i.e. the largest index holding an empty berth. -/
def specMostDownstreamFreeBerth {α : Type v} (berths : List (Option α)) : Option ℕ :=
  (specMostUpstreamFreeBerth berths.reverse).map (fun j => berths.length - 1 - j)

theorem leadingFreeCount_nil {α : Type v} : leadingFreeCount ([] : List (Option α)) = 0 := rfl

theorem leadingFreeCount_cons_none {α : Type v} (rest : List (Option α)) :
    leadingFreeCount (none :: rest) = leadingFreeCount rest + 1 := rfl

theorem leadingFreeCount_cons_some {α : Type v} (a : α) (rest : List (Option α)) :
    leadingFreeCount (some a :: rest) = 0 := rfl

theorem leadingFreeCount_le_length {α : Type v} (l : List (Option α)) :
    leadingFreeCount l ≤ l.length := by
  induction l with
  | nil => simp [leadingFreeCount]
  | cons hd tl ih =>
    cases hd with
    | none => simpa [leadingFreeCount_cons_none] using Nat.succ_le_succ ih
    | some a => simp [leadingFreeCount_cons_some]

theorem getElem?_of_lt_leadingFreeCount {α : Type v} (l : List (Option α)) (j : ℕ)
    (h : j < leadingFreeCount l) : l[j]? = some none := by
  induction l generalizing j with
  | nil => simp [leadingFreeCount] at h
  | cons hd tl ih =>
    cases hd with
    | none =>
      cases j with
      | zero => simp
      | succ j =>
        rw [leadingFreeCount_cons_none] at h
        simpa using ih j (Nat.lt_of_succ_lt_succ h)
    | some a => simp [leadingFreeCount_cons_some] at h

theorem fifoLoop_eq {α : Type v} (l : List (Option α)) :
    ∀ (b : ℕ) (target : Option ℕ), fifoLoop l b target =
      if leadingFreeCount l = 0 then target else some (b + leadingFreeCount l - 1) := by
  induction l with
  | nil => intro b target; simp [fifoLoop, leadingFreeCount]
  | cons hd tl ih =>
    intro b target
    cases hd with
    | none =>
      rw [leadingFreeCount_cons_none]
      simp only [fifoLoop, ih (b + 1) (some b)]
      by_cases h : leadingFreeCount tl = 0 <;> simp [h]
    | some a => simp [fifoLoop, leadingFreeCount_cons_some]

theorem trailingFreeCount_concat_none {α : Type v} (l : List (Option α)) :
    trailingFreeCount (l ++ [none]) = trailingFreeCount l + 1 := by
  simp [trailingFreeCount, List.reverse_append, leadingFreeCount_cons_none]

theorem trailingFreeCount_concat_some {α : Type v} (l : List (Option α)) (a : α) :
    trailingFreeCount (l ++ [some a]) = 0 := by
  simp [trailingFreeCount, List.reverse_append, leadingFreeCount_cons_some]

theorem foLoop_eq {α : Type v} (berths : List (Option α)) :
    ∀ (m : ℕ), m ≤ berths.length → ∀ (target : Option ℕ), foLoop berths m target =
      if trailingFreeCount (berths.take m) = 0 then target
      else some (m - trailingFreeCount (berths.take m)) := by
  intro m
  induction m with
  | zero =>
    intro _ target
    simp [foLoop, trailingFreeCount, leadingFreeCount]
  | succ m ih =>
    intro hm target
    have hmlt : m < berths.length := Nat.lt_of_succ_le hm
    have hget : berths[m]? = some berths[m] := List.getElem?_eq_getElem hmlt
    have htake : berths.take (m + 1) = berths.take m ++ [berths[m]] := by
      rw [List.take_succ, hget]
      rfl
    cases hb : berths[m] with
    | none =>
      have : foLoop berths (m + 1) target = foLoop berths m (some m) := by
        simp [foLoop, hget, hb]
      rw [this, ih (Nat.le_of_lt hmlt) (some m), htake, hb,
        trailingFreeCount_concat_none]
      by_cases h : trailingFreeCount (berths.take m) = 0
      · simp [h]
      · simp [h]
    | some a =>
      have : foLoop berths (m + 1) target = target := by
        simp [foLoop, hget, hb]
      rw [this, htake, hb, trailingFreeCount_concat_some]
      simp

/-- Embedding of the inner FIFO loop of Stop.queue_rule_check_out (stop.py
lines 202-207) applied to the berth-list suffix strictly downstream of the
leaving berth: an occupied berth breaks the loop with can_go still False,
and can_go becomes True only when the scan reaches the last berth and finds
it empty. -/
def outScan {α : Type v} : List (Option α) → Bool
  | [] => false
  | [none] => true
  | none :: rest => outScan rest
  | some _ :: _ => false

/-- Embedding of Stop.queue_rule_check_out (stop.py lines 184-208). -/
def queue_rule_check_out {α : Type v} (rule : QueueRule) (berths : List (Option α))
    (berth_idx : ℕ) : Bool :=
  match rule with
  | .FO => true
  | .FIFO =>
    if berth_idx = berths.length - 1 then true
    else outScan (berths.drop (berth_idx + 1))

theorem outScan_eq_true_iff {α : Type v} (l : List (Option α)) :
    outScan l = true ↔ l ≠ [] ∧ ∀ x ∈ l, x = none := by
  induction l with
  | nil => simp [outScan]
  | cons hd tl ih =>
    cases hd with
    | none =>
      cases tl with
      | nil => simp [outScan]
      | cons hd2 tl2 =>
        rw [show outScan (none :: hd2 :: tl2) = outScan (hd2 :: tl2) from rfl, ih]
        simp
    | some a => simp [outScan]

/-- Embedding of Stop_Board.enter_berth (stop_board.py lines 33-47): if the
entry queue is nonempty, look up a target berth for the bus at the head of
the queue; when one exists, place that bus there and pop it from the queue;
otherwise leave both unchanged.  The per-tick queue-delay logging for the
remaining queued buses touches only the bus logs and is omitted here. -/
def enter_berth {β : Type v} (rule : QueueRule) (entry_queue : List β)
    (buses_in_berth : List (Option β)) : List β × List (Option β) :=
  match entry_queue with
  | [] => (entry_queue, buses_in_berth)
  | head_bus :: rest =>
    match queue_rule_check_in rule buses_in_berth with
    | none => (entry_queue, buses_in_berth)
    | some i => (rest, buses_in_berth.set i (some head_bus))

theorem check_in_fifo_eq {α : Type v} (berths : List (Option α)) :
    queue_rule_check_in .FIFO berths =
      (if leadingFreeCount berths = 0 then none else some (leadingFreeCount berths - 1)) := by
  rw [queue_rule_check_in, fifoLoop_eq]
  by_cases h : leadingFreeCount berths = 0 <;> simp [h]

theorem check_in_fo_eq {α : Type v} (berths : List (Option α)) :
    queue_rule_check_in .FO berths =
      (if trailingFreeCount berths = 0 then none
       else some (berths.length - trailingFreeCount berths)) := by
  rw [queue_rule_check_in, foLoop_eq berths berths.length (Nat.le_refl _) none,
    List.take_length]

theorem trailingFreeCount_le_length {α : Type v} (l : List (Option α)) :
    trailingFreeCount l ≤ l.length := by
  simpa [trailingFreeCount] using leadingFreeCount_le_length l.reverse

theorem getElem?_of_trailing {α : Type v} (l : List (Option α)) (j : ℕ)
    (h : j < trailingFreeCount l) : l[l.length - 1 - j]? = some none := by
  have hlen : j < l.length := Nat.lt_of_lt_of_le h (trailingFreeCount_le_length l)
  have := getElem?_of_lt_leadingFreeCount l.reverse j h
  rwa [List.getElem?_reverse (by simpa using hlen)] at this

/-- Target berths produced by queue_rule_check_in are in range and empty. -/
theorem check_in_sound {α : Type v} (rule : QueueRule) (berths : List (Option α)) (i : ℕ)
    (h : queue_rule_check_in rule berths = some i) :
    i < berths.length ∧ berths[i]? = some none := by
  cases rule with
  | FIFO =>
    rw [check_in_fifo_eq] at h
    by_cases h0 : leadingFreeCount berths = 0
    · simp [h0] at h
    · simp [h0] at h
      have hpos : 0 < leadingFreeCount berths := Nat.pos_of_ne_zero h0
      have hlt : leadingFreeCount berths - 1 < leadingFreeCount berths := by omega
      have hle : leadingFreeCount berths ≤ berths.length := leadingFreeCount_le_length berths
      refine ⟨by omega, ?_⟩
      rw [← h]
      exact getElem?_of_lt_leadingFreeCount berths _ hlt
  | FO =>
    rw [check_in_fo_eq] at h
    by_cases h0 : trailingFreeCount berths = 0
    · simp [h0] at h
    · simp [h0] at h
      have hpos : 0 < trailingFreeCount berths := Nat.pos_of_ne_zero h0
      have hle : trailingFreeCount berths ≤ berths.length := trailingFreeCount_le_length berths
      have hlenpos : 0 < berths.length := by omega
      constructor
      · omega
      · have hj : trailingFreeCount berths - 1 < trailingFreeCount berths := by omega
        have := getElem?_of_trailing berths (trailingFreeCount berths - 1) hj
        have heq : berths.length - 1 - (trailingFreeCount berths - 1)
            = berths.length - trailingFreeCount berths := by omega
        rw [heq] at this
        rw [← h]
        exact this

theorem all_none_iff_getElem? {α : Type v} (l : List (Option α)) :
    (∀ x ∈ l, x = none) ↔ ∀ j, j < l.length → l[j]? = some none := by
  constructor
  · intro h j hj
    rw [List.getElem?_eq_getElem hj]
    exact congrArg some (h _ (List.getElem_mem hj))
  · intro h x hx
    obtain ⟨j, hj, rfl⟩ := List.getElem_of_mem hx
    have h2 := h j hj
    rw [List.getElem?_eq_getElem hj] at h2
    exact Option.some.inj h2

/-- Claim C4 counterexample.  The claim says FO admits into the
most-downstream free berth and FIFO into the most-upstream free berth.  With
two empty berths the code admits into berth 0 under FO (the most-downstream
free berth is 1) and into berth 1 under FIFO (the most-upstream free berth
is 0), so both directions of the claim fail. -/
theorem C4_check_in_counterexample :
    queue_rule_check_in .FO ([none, none] : List (Option ℕ)) = some 0
    ∧ specMostDownstreamFreeBerth ([none, none] : List (Option ℕ)) = some 1
    ∧ queue_rule_check_in .FO ([none, none] : List (Option ℕ))
        ≠ specMostDownstreamFreeBerth ([none, none] : List (Option ℕ))
    ∧ queue_rule_check_in .FIFO ([none, none] : List (Option ℕ)) = some 1
    ∧ specMostUpstreamFreeBerth ([none, none] : List (Option ℕ)) = some 0
    ∧ queue_rule_check_in .FIFO ([none, none] : List (Option ℕ))
        ≠ specMostUpstreamFreeBerth ([none, none] : List (Option ℕ)) := by
  refine ⟨rfl, rfl, by decide, rfl, rfl, by decide⟩

/-- Claim C4 (amended): the stop admission rule selects the target berth as
follows.  Under FIFO it admits into the most-downstream berth of the leading
contiguous run of free berths (index leadingFreeCount - 1, i.e. the berth
immediately upstream of the first occupied berth, or the last berth when all
are free), selecting none when the first berth is occupied or there are no
berths.  Under FO it admits into the most-upstream berth of the trailing
contiguous run of free berths (index length - trailingFreeCount, i.e. the
berth immediately downstream of the last occupied berth, or berth 0 when all
are free), selecting none when the last berth is occupied or there are no
berths. -/
theorem C4_check_in_characterization {α : Type v} (berths : List (Option α)) :
    queue_rule_check_in .FIFO berths =
      (if leadingFreeCount berths = 0 then none else some (leadingFreeCount berths - 1))
    ∧ queue_rule_check_in .FO berths =
      (if trailingFreeCount berths = 0 then none
       else some (berths.length - trailingFreeCount berths)) :=
  ⟨check_in_fifo_eq berths, check_in_fo_eq berths⟩

/-- Claim C5: for every berth index i in range, the egress check under FO is
always true, and under FIFO it is true exactly when every berth at an index
greater than i is empty. -/
theorem C5_check_out_characterization {α : Type v} (berths : List (Option α)) (i : ℕ)
    (h : i < berths.length) :
    queue_rule_check_out .FO berths i = true
    ∧ (queue_rule_check_out .FIFO berths i = true ↔
        ∀ j, i < j → j < berths.length → berths[j]? = some none) := by
  refine ⟨rfl, ?_⟩
  rw [queue_rule_check_out]
  by_cases hlast : i = berths.length - 1
  · subst hlast
    rw [if_pos rfl]
    constructor
    · intro _ j hj1 hj2
      exact absurd hj2 (by omega)
    · intro _
      rfl
  · rw [if_neg hlast, outScan_eq_true_iff, all_none_iff_getElem?]
    have hne : berths.drop (i + 1) ≠ [] := by
      have : 0 < (berths.drop (i + 1)).length := by
        rw [List.length_drop]
        omega
      intro hemp
      rw [hemp] at this
      simp at this
    rw [List.length_drop]
    constructor
    · intro hall j hj1 hj2
      have := hall.2 (j - (i + 1)) (by omega)
      rw [List.getElem?_drop] at this
      have harith : i + 1 + (j - (i + 1)) = j := by omega
      rwa [harith] at this
    · intro hall
      refine ⟨hne, ?_⟩
      intro j hj
      rw [List.getElem?_drop]
      exact hall (i + 1 + j) (by omega) (by omega)

/-- Claim C5 witness: a concrete stop with two berths, berth 0 occupied and
berth 1 free; the bus in berth 0 may leave under FIFO since its only
downstream berth is empty. -/
theorem C5_check_out_witness :
    (0 < ([some 5, none] : List (Option ℕ)).length)
    ∧ (queue_rule_check_out .FO ([some 5, none] : List (Option ℕ)) 0 = true
       ∧ (queue_rule_check_out .FIFO ([some 5, none] : List (Option ℕ)) 0 = true ↔
           ∀ j, 0 < j → j < ([some 5, none] : List (Option ℕ)).length →
             ([some 5, none] : List (Option ℕ))[j]? = some none)) :=
  ⟨by decide, C5_check_out_characterization ([some 5, none] : List (Option ℕ)) 0 (by decide)⟩

/-- Claim C10: in each per-tick admission step, either nothing changes, or
exactly one bus is admitted, it is the bus at the head of the entry queue,
it goes into a free in-range berth, and the other queued buses remain in the
entry queue in their original order. -/
theorem C10_enter_berth_head_only {β : Type v} (rule : QueueRule) (q : List β)
    (b : List (Option β)) :
    enter_berth rule q b = (q, b)
    ∨ ∃ head rest i, q = head :: rest ∧ i < b.length ∧ b[i]? = some none
        ∧ enter_berth rule q b = (rest, b.set i (some head)) := by
  cases q with
  | nil => left; rfl
  | cons head rest =>
    cases hc : queue_rule_check_in rule b with
    | none => left; simp [enter_berth, hc]
    | some i =>
      right
      obtain ⟨h1, h2⟩ := check_in_sound rule b i hc
      exact ⟨head, rest, i, rfl, h1, h2, by simp [enter_berth, hc]⟩

/- ----------------------------------------------------------------- -/
/- Logs: BusRunningLog, StopLog, HolderLog (log.py)                    -/
/- ----------------------------------------------------------------- -/

/-- Association-list append at an existing key, modelling a Python
dict-of-list append d[k].append(x) on a plain dict: if the key is absent the
list is returned unchanged (the Python code would raise KeyError there; the
theorems below always hypothesize the key is present). -/
def appendAt {κ : Type u} {α : Type v} [DecidableEq κ] (k : κ) (x : α) :
    List (κ × List α) → List (κ × List α)
  | [] => []
  | (k1, xs) :: rest => if k1 = k then (k1, xs ++ [x]) :: rest else (k1, xs) :: appendAt k x rest

/-- Association-list append at a key of a defaultdict(list): a missing key is
auto-vivified with the empty list before appending. -/
def dAppend {κ : Type u} {α : Type v} [DecidableEq κ] (k : κ) (x : α) :
    List (κ × List α) → List (κ × List α)
  | [] => [(k, [x])]
  | (k1, xs) :: rest => if k1 = k then (k1, xs ++ [x]) :: rest else (k1, xs) :: dAppend k x rest

/-- Nested defaultdict(lambda: defaultdict(list)) append d[k1][k2].append(x). -/
def dAppend2 {κ₁ : Type u} {κ₂ : Type u} {α : Type v} [DecidableEq κ₁] [DecidableEq κ₂]
    (k1 : κ₁) (k2 : κ₂) (x : α) :
    List (κ₁ × List (κ₂ × List α)) → List (κ₁ × List (κ₂ × List α))
  | [] => [(k1, [(k2, [x])])]
  | (k, inner) :: rest =>
    if k = k1 then (k, dAppend k2 x inner) :: rest else (k, inner) :: dAppend2 k1 k2 x rest

/-- Nested defaultdict(dict) assignment d[k1][k2] = v. -/
def updateAL2 {κ₁ : Type u} {κ₂ : Type u} {α : Type v} [DecidableEq κ₁] [DecidableEq κ₂]
    (k1 : κ₁) (k2 : κ₂) (v : α) :
    List (κ₁ × List (κ₂ × α)) → List (κ₁ × List (κ₂ × α))
  | [] => [(k1, [(k2, v)])]
  | (k, inner) :: rest =>
    if k = k1 then (k, updateAL k2 v inner) :: rest else (k, inner) :: updateAL2 k1 k2 v rest

/-- Nested defaultdict(lambda: defaultdict(dict)) assignment d[k1][k2][k3] = v. -/
def updateAL3 {κ₁ : Type u} {κ₂ : Type u} {κ₃ : Type u} {α : Type v}
    [DecidableEq κ₁] [DecidableEq κ₂] [DecidableEq κ₃] (k1 : κ₁) (k2 : κ₂) (k3 : κ₃) (v : α) :
    List (κ₁ × List (κ₂ × List (κ₃ × α))) → List (κ₁ × List (κ₂ × List (κ₃ × α)))
  | [] => [(k1, [(k2, [(k3, v)])])]
  | (k, inner) :: rest =>
    if k = k1 then (k, updateAL2 k2 k3 v inner) :: rest else (k, inner) :: updateAL3 k1 k2 k3 v rest

/-- Two-level association-list lookup d[k1][k2] returning none when either
level is missing. -/
def lookup2AL {κ₁ : Type u} {κ₂ : Type u} {α : Type v} [DecidableEq κ₁] [DecidableEq κ₂]
    (k1 : κ₁) (k2 : κ₂) (m : List (κ₁ × List (κ₂ × α))) : Option α :=
  (lookupAL k1 m).bind (lookupAL k2)

/-- Two-level lookup of a defaultdict-of-lists, defaulting to the empty list. -/
def lookup2D {κ₁ : Type u} {κ₂ : Type u} {α : Type v} [DecidableEq κ₁] [DecidableEq κ₂]
    (k1 : κ₁) (k2 : κ₂) (m : List (κ₁ × List (κ₂ × List α))) : List α :=
  (lookup2AL k1 k2 m).getD []

/-- Embedding of BusRunningLog (log.py lines 141-257), keeping the fields the
claims touch.  The per-stop virtual-bus reference times are total maps; the
written per-stop records are association lists.  Rationals model Python
floats, integer tick times included. -/
structure BusRunningLog where
  schedule_headway : ℚ
  virtual_bus_stop_arrival_time : String → ℚ
  virtual_bus_stop_rtd_time : String → ℚ
  virtual_bus_stop_departure_time : String → ℚ
  stop_arrival_time : List (String × ℚ)
  stop_rtd_time : List (String × ℚ)
  stop_departure_time : List (String × ℚ)
  stop_epsilon_arrival : List (String × ℚ)
  stop_epsilon_rtd : List (String × ℚ)
  stop_epsilon_departure : List (String × ℚ)
  visited_stops : List String

/-- Embedding of BusRunningLog.record_when_arrival (log.py lines 187-212).
The optional argument models the presence of the last_arrival_idx_count
kwarg; the returned rational is the epsilon (none without the kwarg). -/
def BusRunningLog.record_when_arrival (log : BusRunningLog) (stop_id : String) (t : ℚ)
    (last_arrival_idx_count : Option ℕ) : BusRunningLog × Option ℚ :=
  let log1 := { log with stop_arrival_time := updateAL stop_id t log.stop_arrival_time }
  match last_arrival_idx_count with
  | none => (log1, none)
  | some count =>
    let shift := log.schedule_headway * (count : ℚ)
    let schedule_arrival := log.virtual_bus_stop_arrival_time stop_id + shift
    let epsilon_arrival := t - schedule_arrival
    ({ log1 with
        stop_epsilon_arrival := updateAL stop_id epsilon_arrival log1.stop_epsilon_arrival },
     some epsilon_arrival)

/-- Embedding of BusRunningLog.record_when_rtd (log.py lines 217-233). -/
def BusRunningLog.record_when_rtd (log : BusRunningLog) (stop_id : String) (t : ℚ)
    (last_rtd_idx_count : Option ℕ) : BusRunningLog × Option ℚ :=
  let log1 := { log with
    stop_rtd_time := updateAL stop_id t log.stop_rtd_time,
    visited_stops := log.visited_stops ++ [stop_id] }
  match last_rtd_idx_count with
  | none => (log1, none)
  | some count =>
    let shift := log.schedule_headway * (count : ℚ)
    let schedule_rtd := log.virtual_bus_stop_rtd_time stop_id + shift
    let epsilon_rtd := t - schedule_rtd
    ({ log1 with stop_epsilon_rtd := updateAL stop_id epsilon_rtd log1.stop_epsilon_rtd },
     some epsilon_rtd)

/-- Embedding of BusRunningLog.record_when_departure (log.py lines 235-251). -/
def BusRunningLog.record_when_departure (log : BusRunningLog) (stop_id : String) (t : ℚ)
    (last_departure_idx_count : Option ℕ) : BusRunningLog × Option ℚ :=
  let log1 := { log with stop_departure_time := updateAL stop_id t log.stop_departure_time }
  match last_departure_idx_count with
  | none => (log1, none)
  | some count =>
    let shift := log.schedule_headway * (count : ℚ)
    let schedule_departure := log.virtual_bus_stop_departure_time stop_id + shift
    let epsilon_departure := t - schedule_departure
    ({ log1 with
        stop_epsilon_departure := updateAL stop_id epsilon_departure log1.stop_epsilon_departure },
     some epsilon_departure)

/-- Embedding of StopLog (log.py lines 7-106).  Per-route event sequences of
one stop; the epsilon maps are nested dicts route -> bus -> epsilon. -/
structure StopLog where
  route_arrival_time_seq : List (String × List ℚ)
  route_arrival_bus_id_seq : List (String × List String)
  route_rtd_time_seq : List (String × List ℚ)
  route_rtd_bus_id_seq : List (String × List String)
  route_bus_epsilon_arrival : List (String × List (String × ℚ))
  route_bus_epsilon_rtd : List (String × List (String × ℚ))

/-- Embedding of the StopLog constructor (log.py lines 23-67): every route
whose virtual-bus trajectory visits this stop has its arrival and rtd
sequences pre-seeded with the single virtual-bus entry, bus id 0, and (when
schedules are tracked) epsilon 0 for bus 0.  The virtual-bus argument maps
route id to the assoc list stop id -> reference time. -/
def StopLog.initLog (stop_id : String)
    (route_stop_arrival_time route_stop_rtd_time : List (String × List (String × ℚ)))
    (has_schedule : Bool) : StopLog :=
  { route_arrival_time_seq := route_stop_arrival_time.filterMap
      (fun p => (lookupAL stop_id p.2).map (fun v => (p.1, [v]))),
    route_arrival_bus_id_seq := route_stop_arrival_time.filterMap
      (fun p => (lookupAL stop_id p.2).map (fun _ => (p.1, ["0"]))),
    route_rtd_time_seq := route_stop_rtd_time.filterMap
      (fun p => (lookupAL stop_id p.2).map (fun v => (p.1, [v]))),
    route_rtd_bus_id_seq := route_stop_rtd_time.filterMap
      (fun p => (lookupAL stop_id p.2).map (fun _ => (p.1, ["0"]))),
    route_bus_epsilon_arrival :=
      if has_schedule then
        route_stop_arrival_time.filterMap
          (fun p => (lookupAL stop_id p.2).map (fun _ => (p.1, [("0", (0 : ℚ))])))
      else [],
    route_bus_epsilon_rtd :=
      if has_schedule then
        route_stop_rtd_time.filterMap
          (fun p => (lookupAL stop_id p.2).map (fun _ => (p.1, [("0", (0 : ℚ))])))
      else [] }

/-- Embedding of StopLog.record_when_bus_arrival (log.py lines 69-87). -/
def StopLog.record_when_bus_arrival (sl : StopLog) (route_id bus_id : String) (t : ℚ)
    (epsilon_arrival : Option ℚ) : StopLog :=
  let sl1 := { sl with
    route_arrival_time_seq := appendAt route_id t sl.route_arrival_time_seq,
    route_arrival_bus_id_seq := appendAt route_id bus_id sl.route_arrival_bus_id_seq }
  match epsilon_arrival with
  | none => sl1
  | some e =>
    { sl1 with route_bus_epsilon_arrival :=
        updateAL2 route_id bus_id e sl1.route_bus_epsilon_arrival }

/-- Embedding of StopLog.record_when_bus_rtd (log.py lines 89-106). -/
def StopLog.record_when_bus_rtd (sl : StopLog) (route_id bus_id : String) (t : ℚ)
    (epsilon_rtd : Option ℚ) : StopLog :=
  let sl1 := { sl with
    route_rtd_time_seq := appendAt route_id t sl.route_rtd_time_seq,
    route_rtd_bus_id_seq := appendAt route_id bus_id sl.route_rtd_bus_id_seq }
  match epsilon_rtd with
  | none => sl1
  | some e =>
    { sl1 with route_bus_epsilon_rtd := updateAL2 route_id bus_id e sl1.route_bus_epsilon_rtd }

/-- Embedding of HolderLog (log.py lines 109-138): nested per-route per-stop
departure sequences and epsilons. -/
structure HolderLog where
  route_stop_departure_time_seq : List (String × List (String × List ℚ))
  route_stop_departure_bus_id_seq : List (String × List (String × List String))
  route_stop_bus_epsilon_departure : List (String × List (String × List (String × ℚ)))

/-- Embedding of the HolderLog constructor (log.py lines 110-129): every
(route, stop) pair of the virtual-bus departure trajectory is pre-seeded
with the single virtual-bus departure, bus id 0, epsilon 0 when schedules
are tracked. -/
def HolderLog.initLog (route_stop_departure_time : List (String × List (String × ℚ)))
    (has_schedule : Bool) : HolderLog :=
  { route_stop_departure_time_seq := route_stop_departure_time.map
      (fun p => (p.1, p.2.map (fun q => (q.1, [q.2])))),
    route_stop_departure_bus_id_seq := route_stop_departure_time.map
      (fun p => (p.1, p.2.map (fun q => (q.1, ["0"])))),
    route_stop_bus_epsilon_departure :=
      if has_schedule then
        route_stop_departure_time.map
          (fun p => (p.1, p.2.map (fun q => (q.1, [("0", (0 : ℚ))]))))
      else [] }

/-- Embedding of HolderLog.record_when_bus_departure (log.py lines 131-138). -/
def HolderLog.record_when_bus_departure (hl : HolderLog) (stop_id route_id bus_id : String)
    (t : ℚ) (epsilon_departure : Option ℚ) : HolderLog :=
  let hl1 := { hl with
    route_stop_departure_time_seq :=
      dAppend2 route_id stop_id t hl.route_stop_departure_time_seq,
    route_stop_departure_bus_id_seq :=
      dAppend2 route_id stop_id bus_id hl.route_stop_departure_bus_id_seq }
  match epsilon_departure with
  | none => hl1
  | some e =>
    { hl1 with route_stop_bus_epsilon_departure :=
        updateAL3 route_id stop_id bus_id e hl1.route_stop_bus_epsilon_departure }

/-- Embedding of the schedule branch of Stop.enter_stop (stop.py lines
123-136): take the per-route arrival count before appending, compute the
epsilon in the bus log, then append the event to the stop log. -/
def enter_stop_record (sl : StopLog) (bl : BusRunningLog) (route_id bus_id stop_id : String)
    (t : ℚ) : StopLog × BusRunningLog × Option ℚ :=
  let arrival_idx_count := ((lookupAL route_id sl.route_arrival_time_seq).getD []).length
  let p := bl.record_when_arrival stop_id t (some arrival_idx_count)
  (sl.record_when_bus_arrival route_id bus_id t p.2, p.1, p.2)

/-- Embedding of the schedule branch of the per-bus body of Stop_Board.leave
(stop_board.py lines 84-90): rtd count before appending, epsilon in the bus
log, then the stop-log append. -/
def leave_record (sl : StopLog) (bl : BusRunningLog) (route_id bus_id stop_id : String)
    (t : ℚ) : StopLog × BusRunningLog × Option ℚ :=
  let rtd_idx_count := ((lookupAL route_id sl.route_rtd_bus_id_seq).getD []).length
  let p := bl.record_when_rtd stop_id t (some rtd_idx_count)
  (sl.record_when_bus_rtd route_id bus_id t p.2, p.1, p.2)

/-- Embedding of the schedule branch of the release path of Holder.operation
(holder.py lines 63-70): departure count before appending, epsilon in the
bus log, then the holder-log append. -/
def holder_departure_record (hl : HolderLog) (bl : BusRunningLog)
    (stop_id route_id bus_id : String) (t : ℚ) : HolderLog × BusRunningLog × Option ℚ :=
  let bus_id_seq := lookup2D route_id stop_id hl.route_stop_departure_bus_id_seq
  let departure_idx_count := bus_id_seq.length
  let p := bl.record_when_departure stop_id t (some departure_idx_count)
  (hl.record_when_bus_departure stop_id route_id bus_id t p.2, p.1, p.2)

/- ----------------------------------------------------------------- -/
/- Holder: the hold-time scheduler (holder.py)                         -/
/- ----------------------------------------------------------------- -/

/-- Bus as the holder and the logs see it (bus.py): identity, status string
and the running log. -/
structure Bus where
  route_id : String
  bus_id : String
  status : String
  bus_log : BusRunningLog

/-- Holder key (released stop id, route id, bus id). -/
abbrev HolderKey := String × String × String

/-- Embedding of the Holder state (holder.py lines 12-32).  The identifier
list models the pair of dicts identifier_bus and identifier_time, which the
source always keeps on exactly the same key set (add_bus inserts into both,
operation pops from both), as one dict whose value carries the bus together
with the optional remaining hold time. -/
structure Holder where
  identifier : List (HolderKey × Bus × Option ℚ)
  holder_log : HolderLog
  has_schedule : Bool

/-- Embedding of Holder.add_bus (holder.py lines 34-38): register the bus
under (stop id, route id, bus id) with an undecided (none) hold time and
set its status to holding.  The update_location trajectory write is not
modelled. -/
def Holder.add_bus (h : Holder) (stop_id : String) (bus : Bus) : Holder :=
  let k : HolderKey := (stop_id, bus.route_id, bus.bus_id)
  let held : Bus := { bus with status := "holding" }
  { h with identifier := updateAL k (held, none) h.identifier }

/-- The two ways Holder.set_hold_action can fail: a KeyError from reading an
unregistered key out of identifier_time, and the AssertionError from the
assert that the stored hold time is still None. -/
inductive HoldError
  | keyError
  | busAlreadyHolding
deriving DecidableEq

/-- Embedding of Holder.set_hold_action (holder.py lines 40-44): process the
externally supplied (key, hold time) pairs in order; reading a missing key
raises KeyError, an already-assigned hold time trips the assert, otherwise
the hold time is stored and processing continues. -/
def Holder.set_hold_action (h : Holder) : List (HolderKey × ℚ) → Except HoldError Holder
  | [] => .ok h
  | (k, hold_time) :: rest =>
    match lookupAL k h.identifier with
    | none => .error .keyError
    | some (_, some _) => .error .busAlreadyHolding
    | some (b, none) =>
      Holder.set_hold_action
        { h with identifier := updateAL k (b, some hold_time) h.identifier } rest

/-- The entries Holder.operation keeps (holder.py lines 51-59 and 83-85):
undecided entries are untouched, assigned entries have their hold time
decremented by one and survive only if the decremented value is positive. -/
def operationKept (l : List (HolderKey × Bus × Option ℚ)) : List (HolderKey × Bus × Option ℚ) :=
  l.filterMap (fun e =>
    match e with
    | (k, b, none) => some (k, b, none)
    | (k, b, some hold_time) =>
      if hold_time - 1 ≤ 0 then none else some (k, b, some (hold_time - 1)))

/-- The entries Holder.operation releases this tick: assigned entries whose
decremented hold time is zero or below. -/
def operationReleased (l : List (HolderKey × Bus × Option ℚ)) : List (HolderKey × Bus) :=
  l.filterMap (fun e =>
    match e with
    | (_, _, none) => none
    | (k, b, some hold_time) => if hold_time - 1 ≤ 0 then some (k, b) else none)

/-- Per-released-bus bookkeeping of Holder.operation (holder.py lines
60-77): append the bus to the released accumulator and record its departure
in the holder log and bus log, with the epsilon computation when schedules
are tracked. -/
def holder_release_step (has_schedule : Bool) (t : ℚ)
    (acc : HolderLog × List (HolderKey × Bus)) (e : HolderKey × Bus) :
    HolderLog × List (HolderKey × Bus) :=
  let hl := acc.1
  let k := e.1
  let b := e.2
  if has_schedule then
    let p := holder_departure_record hl b.bus_log k.1 k.2.1 k.2.2 t
    (p.1, acc.2 ++ [(k, { b with bus_log := p.2.1 })])
  else
    let p := b.bus_log.record_when_departure k.1 t none
    (hl.record_when_bus_departure k.1 k.2.1 k.2.2 t none,
     acc.2 ++ [(k, { b with bus_log := p.1 })])

/-- Embedding of Holder.operation (holder.py lines 46-87).  The released
list is returned with full keys; grouping it by stop id gives the
stop_held_buses dict of the source (see stop_held_buses below). -/
def Holder.operation (h : Holder) (t : ℚ) : Holder × List (HolderKey × Bus) :=
  let res := (operationReleased h.identifier).foldl
    (holder_release_step h.has_schedule t) (h.holder_log, [])
  ({ identifier := operationKept h.identifier, holder_log := res.1,
     has_schedule := h.has_schedule }, res.2)

/-- The per-stop view of the released list, modelling the returned
stop_held_buses defaultdict of holder.py line 48. -/
def stop_held_buses (released : List (HolderKey × Bus)) (stop_id : String) : List Bus :=
  (released.filter (fun e => e.1.1 = stop_id)).map (fun e => e.2)

/-- Claim C1: a bus registered through add_bus starts with an undecided hold
time, a first set_hold_action call for its key succeeds, and a second
set_hold_action call for the same key fails with the assertion error: at
most one hold-time assignment per registration. -/
theorem C1_set_hold_action_twice_fails (h : Holder) (stop_id : String) (bus : Bus)
    (t1 t2 : ℚ) :
    ∃ h1,
      (h.add_bus stop_id bus).set_hold_action
          [((stop_id, bus.route_id, bus.bus_id), t1)] = .ok h1
      ∧ h1.set_hold_action [((stop_id, bus.route_id, bus.bus_id), t2)]
          = .error .busAlreadyHolding := by
  have hreg : lookupAL (stop_id, bus.route_id, bus.bus_id) (h.add_bus stop_id bus).identifier
      = some ({ bus with status := "holding" }, none) := by
    simp only [Holder.add_bus]
    exact lookupAL_updateAL_self _ _ _
  refine ⟨{ h.add_bus stop_id bus with
      identifier := updateAL (stop_id, bus.route_id, bus.bus_id)
        ({ bus with status := "holding" }, some t1) (h.add_bus stop_id bus).identifier },
    ?_, ?_⟩
  · simp only [Holder.set_hold_action, hreg]
  · simp only [Holder.set_hold_action, lookupAL_updateAL_self]

/-- Claim C9: set_hold_action applied to a key that is not currently
registered in the holder fails with a KeyError instead of creating an
entry. -/
theorem C9_set_hold_action_unregistered (h : Holder) (k : HolderKey) (t : ℚ)
    (rest : List (HolderKey × ℚ)) (hmiss : lookupAL k h.identifier = none) :
    h.set_hold_action ((k, t) :: rest) = .error .keyError := by
  rw [Holder.set_hold_action, hmiss]

/-- An empty bus running log used to build concrete witnesses. -/
def emptyBusLog : BusRunningLog :=
  { schedule_headway := 300,
    virtual_bus_stop_arrival_time := fun _ => 0,
    virtual_bus_stop_rtd_time := fun _ => 0,
    virtual_bus_stop_departure_time := fun _ => 0,
    stop_arrival_time := [], stop_rtd_time := [], stop_departure_time := [],
    stop_epsilon_arrival := [], stop_epsilon_rtd := [], stop_epsilon_departure := [],
    visited_stops := [] }

/-- An empty holder log used to build concrete witnesses. -/
def emptyHolderLog : HolderLog :=
  { route_stop_departure_time_seq := [], route_stop_departure_bus_id_seq := [],
    route_stop_bus_epsilon_departure := [] }

/-- Claim C9 witness: an empty holder rejects a hold action for the
unregistered key (s1, r1, 1) with a KeyError. -/
theorem C9_set_hold_action_unregistered_witness :
    lookupAL (("s1", "r1", "1") : HolderKey)
        (Holder.mk [] emptyHolderLog false).identifier = none
    ∧ (Holder.mk [] emptyHolderLog false).set_hold_action
        [((("s1", "r1", "1") : HolderKey), (30 : ℚ))] = .error .keyError :=
  ⟨rfl, C9_set_hold_action_unregistered (Holder.mk [] emptyHolderLog false)
    ("s1", "r1", "1") 30 [] rfl⟩

theorem lookupAL_eq_none_iff {κ : Type u} {α : Type v} [DecidableEq κ] (k : κ)
    (l : List (κ × α)) : lookupAL k l = none ↔ k ∉ l.map Prod.fst := by
  induction l with
  | nil => simp [lookupAL]
  | cons hd tl ih =>
    obtain ⟨k1, v1⟩ := hd
    by_cases h : k1 = k
    · subst h
      simp [lookupAL]
    · simp [lookupAL, h, ih, Ne.symm h]

theorem mem_of_lookupAL {κ : Type u} {α : Type v} [DecidableEq κ] {k : κ} {x : α}
    {l : List (κ × α)} (h : lookupAL k l = some x) : (k, x) ∈ l := by
  induction l with
  | nil => cases h
  | cons hd tl ih =>
    obtain ⟨k1, v1⟩ := hd
    by_cases he : k1 = k
    · subst he
      rw [lookupAL, if_pos rfl] at h
      injection h with h
      subst h
      exact List.mem_cons_self _ _
    · rw [lookupAL, if_neg he] at h
      exact List.mem_cons_of_mem _ (ih h)

theorem lookupAL_of_mem_nodup {κ : Type u} {α : Type v} [DecidableEq κ] {k : κ} {x : α}
    {l : List (κ × α)} (hnd : (l.map Prod.fst).Nodup) (hm : (k, x) ∈ l) :
    lookupAL k l = some x := by
  induction l with
  | nil => simp at hm
  | cons hd tl ih =>
    obtain ⟨k1, v1⟩ := hd
    rw [List.map_cons, List.nodup_cons] at hnd
    rcases List.mem_cons.mp hm with heq | htl
    · rw [show k = k1 from congrArg Prod.fst heq, lookupAL, if_pos rfl]
      exact congrArg some (congrArg Prod.snd heq).symm
    · have hk : k1 ≠ k := by
        intro he
        subst he
        exact hnd.1 (List.mem_map.mpr ⟨(k1, x), htl, rfl⟩)
      rw [lookupAL, if_neg hk]
      exact ih hnd.2 htl

theorem exists_snd_of_mem_map_fst {γ : Type u} {δ : Type v} {k : γ} {l : List (γ × δ)}
    (h : k ∈ l.map Prod.fst) : ∃ x, (k, x) ∈ l := by
  obtain ⟨⟨k1, x⟩, hp, rfl⟩ := List.mem_map.mp h
  exact ⟨x, hp⟩


theorem operationKept_cons_undecided (k : HolderKey) (b : Bus)
    (tl : List (HolderKey × Bus × Option ℚ)) :
    operationKept ((k, b, none) :: tl) = (k, b, none) :: operationKept tl := rfl

theorem operationKept_cons_released (k : HolderKey) (b : Bus) (τ : ℚ)
    (tl : List (HolderKey × Bus × Option ℚ)) (hτ : τ - 1 ≤ 0) :
    operationKept ((k, b, some τ) :: tl) = operationKept tl := by
  simp only [operationKept, List.filterMap_cons]
  rw [if_pos hτ]

theorem operationKept_cons_kept (k : HolderKey) (b : Bus) (τ : ℚ)
    (tl : List (HolderKey × Bus × Option ℚ)) (hτ : ¬τ - 1 ≤ 0) :
    operationKept ((k, b, some τ) :: tl) = (k, b, some (τ - 1)) :: operationKept tl := by
  simp only [operationKept, List.filterMap_cons]
  rw [if_neg hτ]

theorem operationReleased_cons_undecided (k : HolderKey) (b : Bus)
    (tl : List (HolderKey × Bus × Option ℚ)) :
    operationReleased ((k, b, none) :: tl) = operationReleased tl := rfl

theorem operationReleased_cons_released (k : HolderKey) (b : Bus) (τ : ℚ)
    (tl : List (HolderKey × Bus × Option ℚ)) (hτ : τ - 1 ≤ 0) :
    operationReleased ((k, b, some τ) :: tl) = (k, b) :: operationReleased tl := by
  simp only [operationReleased, List.filterMap_cons]
  rw [if_pos hτ]

theorem operationReleased_cons_kept (k : HolderKey) (b : Bus) (τ : ℚ)
    (tl : List (HolderKey × Bus × Option ℚ)) (hτ : ¬τ - 1 ≤ 0) :
    operationReleased ((k, b, some τ) :: tl) = operationReleased tl := by
  simp only [operationReleased, List.filterMap_cons]
  rw [if_neg hτ]

theorem lookupAL_operationKept_of_none {l : List (HolderKey × Bus × Option ℚ)} {k : HolderKey}
    (h : lookupAL k l = none) : lookupAL k (operationKept l) = none := by
  induction l with
  | nil => rfl
  | cons hd tl ih =>
    obtain ⟨k1, b1, v1⟩ := hd
    have hk : ¬k1 = k := by
      intro he
      rw [lookupAL, if_pos he] at h
      cases h
    have htl : lookupAL k tl = none := by rwa [lookupAL, if_neg hk] at h
    cases v1 with
    | none =>
      rw [operationKept_cons_undecided, lookupAL, if_neg hk]
      exact ih htl
    | some τ =>
      by_cases hτ : τ - 1 ≤ 0
      · rw [operationKept_cons_released k1 b1 τ tl hτ]
        exact ih htl
      · rw [operationKept_cons_kept k1 b1 τ tl hτ, lookupAL, if_neg hk]
        exact ih htl

theorem lookupAL_operationKept_undecided {l : List (HolderKey × Bus × Option ℚ)}
    {k : HolderKey} {b : Bus} (h : lookupAL k l = some (b, none)) :
    lookupAL k (operationKept l) = some (b, none) := by
  induction l with
  | nil => cases h
  | cons hd tl ih =>
    obtain ⟨k1, b1, v1⟩ := hd
    by_cases hk : k1 = k
    · rw [lookupAL, if_pos hk] at h
      injection h with h
      rw [show b1 = b from congrArg Prod.fst h, show v1 = none from congrArg Prod.snd h,
        operationKept_cons_undecided, lookupAL, if_pos hk]
    · rw [lookupAL, if_neg hk] at h
      cases v1 with
      | none =>
        rw [operationKept_cons_undecided, lookupAL, if_neg hk]
        exact ih h
      | some τ =>
        by_cases hτ : τ - 1 ≤ 0
        · rw [operationKept_cons_released k1 b1 τ tl hτ]
          exact ih h
        · rw [operationKept_cons_kept k1 b1 τ tl hτ, lookupAL, if_neg hk]
          exact ih h

theorem lookupAL_operationKept_decremented {l : List (HolderKey × Bus × Option ℚ)}
    {k : HolderKey} {b : Bus} {τ : ℚ} (h : lookupAL k l = some (b, some τ))
    (hτ : ¬τ - 1 ≤ 0) : lookupAL k (operationKept l) = some (b, some (τ - 1)) := by
  induction l with
  | nil => cases h
  | cons hd tl ih =>
    obtain ⟨k1, b1, v1⟩ := hd
    by_cases hk : k1 = k
    · rw [lookupAL, if_pos hk] at h
      injection h with h
      rw [show b1 = b from congrArg Prod.fst h, show v1 = some τ from congrArg Prod.snd h,
        operationKept_cons_kept k1 b τ tl hτ, lookupAL, if_pos hk]
    · rw [lookupAL, if_neg hk] at h
      cases v1 with
      | none =>
        rw [operationKept_cons_undecided, lookupAL, if_neg hk]
        exact ih h
      | some τ1 =>
        by_cases hτ1 : τ1 - 1 ≤ 0
        · rw [operationKept_cons_released k1 b1 τ1 tl hτ1]
          exact ih h
        · rw [operationKept_cons_kept k1 b1 τ1 tl hτ1, lookupAL, if_neg hk]
          exact ih h

theorem lookupAL_operationKept_released {l : List (HolderKey × Bus × Option ℚ)}
    {k : HolderKey} {b : Bus} {τ : ℚ} (hnd : (l.map Prod.fst).Nodup)
    (h : lookupAL k l = some (b, some τ)) (hτ : τ - 1 ≤ 0) :
    lookupAL k (operationKept l) = none := by
  induction l with
  | nil => cases h
  | cons hd tl ih =>
    obtain ⟨k1, b1, v1⟩ := hd
    rw [List.map_cons, List.nodup_cons] at hnd
    by_cases hk : k1 = k
    · rw [lookupAL, if_pos hk] at h
      injection h with h
      subst hk
      rw [show v1 = some τ from congrArg Prod.snd h, operationKept_cons_released k1 b1 τ tl hτ]
      exact lookupAL_operationKept_of_none ((lookupAL_eq_none_iff _ _).mpr hnd.1)
    · rw [lookupAL, if_neg hk] at h
      cases v1 with
      | none =>
        rw [operationKept_cons_undecided, lookupAL, if_neg hk]
        exact ih hnd.2 h
      | some τ1 =>
        by_cases hτ1 : τ1 - 1 ≤ 0
        · rw [operationKept_cons_released k1 b1 τ1 tl hτ1]
          exact ih hnd.2 h
        · rw [operationKept_cons_kept k1 b1 τ1 tl hτ1, lookupAL, if_neg hk]
          exact ih hnd.2 h

theorem mem_operationReleased_of_lookup {l : List (HolderKey × Bus × Option ℚ)}
    {k : HolderKey} {b : Bus} {τ : ℚ} (h : lookupAL k l = some (b, some τ))
    (hτ : τ - 1 ≤ 0) : (k, b) ∈ operationReleased l := by
  have hm := mem_of_lookupAL h
  refine List.mem_filterMap.mpr ⟨(k, b, some τ), hm, ?_⟩
  show (if τ - 1 ≤ 0 then some ((k, b) : HolderKey × Bus) else none) = some (k, b)
  rw [if_pos hτ]

theorem eq_of_mem_operationReleased {l : List (HolderKey × Bus × Option ℚ)}
    {k : HolderKey} {b2 : Bus} (h : (k, b2) ∈ operationReleased l) :
    ∃ τ, (k, (b2, some τ)) ∈ l ∧ τ - 1 ≤ 0 := by
  obtain ⟨⟨k1, b1, v1⟩, hm, he⟩ := List.mem_filterMap.mp h
  cases v1 with
  | none => cases he
  | some τ =>
    have he2 : (if τ - 1 ≤ 0 then some ((k1, b1) : HolderKey × Bus) else none)
        = some (k, b2) := he
    by_cases hτ : τ - 1 ≤ 0
    · rw [if_pos hτ] at he2
      injection he2 with he2
      rw [show k1 = k from congrArg Prod.fst he2, show b1 = b2 from congrArg Prod.snd he2] at hm
      exact ⟨τ, hm, hτ⟩
    · rw [if_neg hτ] at he2
      cases he2

theorem lookupAL_dAppend {κ : Type u} {α : Type v} [DecidableEq κ] (k k9 : κ) (x : α)
    (m : List (κ × List α)) :
    lookupAL k (dAppend k9 x m) =
      if k9 = k then some (((lookupAL k m).getD []) ++ [x]) else lookupAL k m := by
  induction m with
  | nil =>
    by_cases h : k9 = k
    · subst h
      simp [dAppend, lookupAL]
    · simp [dAppend, lookupAL, h]
  | cons hd tl ih =>
    obtain ⟨k1, xs⟩ := hd
    by_cases h1 : k1 = k9
    · subst h1
      by_cases h2 : k1 = k
      · subst h2
        simp [dAppend, lookupAL]
      · simp [dAppend, lookupAL, h2]
    · by_cases h2 : k1 = k
      · subst h2
        have h9 : ¬k9 = k1 := fun he => h1 he.symm
        simp [dAppend, lookupAL, h1, h9]
      · simp [dAppend, lookupAL, h1, h2, ih]

theorem lookupAL_dAppend2 {κ₁ : Type u} {κ₂ : Type u} {α : Type v} [DecidableEq κ₁]
    [DecidableEq κ₂] (k1 k2 : κ₁) (j1 : κ₂) (x : α) (m : List (κ₁ × List (κ₂ × List α))) :
    lookupAL k2 (dAppend2 k1 j1 x m) =
      if k1 = k2 then some (dAppend j1 x ((lookupAL k2 m).getD [])) else lookupAL k2 m := by
  induction m with
  | nil =>
    by_cases h : k1 = k2
    · subst h
      simp [dAppend2, lookupAL, dAppend]
    · simp [dAppend2, lookupAL, h]
  | cons hd tl ih =>
    obtain ⟨k, inner⟩ := hd
    by_cases hh : k = k1
    · subst hh
      by_cases h2 : k = k2
      · subst h2
        simp [dAppend2, lookupAL]
      · simp [dAppend2, lookupAL, h2]
    · by_cases h2 : k = k2
      · subst h2
        have hne : ¬k1 = k := fun he => hh he.symm
        simp [dAppend2, lookupAL, hh, hne]
      · simp [dAppend2, lookupAL, hh, h2, ih]

theorem lookup2D_dAppend2 {κ₁ : Type u} {κ₂ : Type u} {α : Type v} [DecidableEq κ₁]
    [DecidableEq κ₂] (k1 k2 : κ₁) (j1 j2 : κ₂) (x : α)
    (m : List (κ₁ × List (κ₂ × List α))) :
    lookup2D k2 j2 (dAppend2 k1 j1 x m) =
      if k1 = k2 ∧ j1 = j2 then lookup2D k2 j2 m ++ [x] else lookup2D k2 j2 m := by
  rw [lookup2D, lookup2AL, lookupAL_dAppend2]
  by_cases h1 : k1 = k2
  · rw [if_pos h1]
    simp only [Option.some_bind]
    rw [lookupAL_dAppend]
    by_cases h2 : j1 = j2
    · rw [if_pos h2, if_pos ⟨h1, h2⟩, lookup2D, lookup2AL]
      cases hm : lookupAL k2 m <;> simp [lookupAL]
    · rw [if_neg h2, if_neg (fun hc => h2 hc.2), lookup2D, lookup2AL]
      cases hm : lookupAL k2 m <;> simp [lookupAL]
  · rw [if_neg h1, if_neg (fun hc => h1 hc.1), lookup2D, lookup2AL]

theorem mem_lookup2D_dAppend2 {κ₁ : Type u} {κ₂ : Type u} {α : Type v} [DecidableEq κ₁]
    [DecidableEq κ₂] {k2 : κ₁} {j2 : κ₂} {y : α} (k1 : κ₁) (j1 : κ₂) (x : α)
    (m : List (κ₁ × List (κ₂ × List α))) (h : y ∈ lookup2D k2 j2 m) :
    y ∈ lookup2D k2 j2 (dAppend2 k1 j1 x m) := by
  rw [lookup2D_dAppend2]
  by_cases hc : k1 = k2 ∧ j1 = j2
  · rw [if_pos hc]
    exact List.mem_append_left _ h
  · rwa [if_neg hc]

theorem self_mem_lookup2D_dAppend2 {κ₁ : Type u} {κ₂ : Type u} {α : Type v} [DecidableEq κ₁]
    [DecidableEq κ₂] (k1 : κ₁) (j1 : κ₂) (x : α) (m : List (κ₁ × List (κ₂ × List α))) :
    x ∈ lookup2D k1 j1 (dAppend2 k1 j1 x m) := by
  rw [lookup2D_dAppend2, if_pos ⟨rfl, rfl⟩]
  exact List.mem_append_right _ (List.mem_singleton.mpr rfl)

theorem holder_release_step_log (hs : Bool) (t : ℚ) (hl : HolderLog)
    (acc : List (HolderKey × Bus)) (e : HolderKey × Bus) :
    (holder_release_step hs t (hl, acc) e).1.route_stop_departure_bus_id_seq
      = dAppend2 e.1.2.1 e.1.1 e.1.2.2 hl.route_stop_departure_bus_id_seq := by
  cases hs with
  | false =>
    simp [holder_release_step, HolderLog.record_when_bus_departure]
  | true =>
    simp [holder_release_step, holder_departure_record, HolderLog.record_when_bus_departure,
      BusRunningLog.record_when_departure]

theorem holder_release_step_snd (hs : Bool) (t : ℚ) (hl : HolderLog)
    (acc : List (HolderKey × Bus)) (e : HolderKey × Bus) :
    ∃ b2, (holder_release_step hs t (hl, acc) e).2 = acc ++ [(e.1, b2)] := by
  cases hs with
  | false => exact ⟨_, rfl⟩
  | true => exact ⟨_, rfl⟩

theorem release_fold_snd_keys (hs : Bool) (t : ℚ) (pre : List (HolderKey × Bus)) :
    ∀ (hl : HolderLog) (acc : List (HolderKey × Bus)),
      ((pre.foldl (holder_release_step hs t) (hl, acc)).2).map Prod.fst
        = acc.map Prod.fst ++ pre.map Prod.fst := by
  induction pre with
  | nil => intro hl acc; simp
  | cons e rest ih =>
    intro hl acc
    rw [List.foldl_cons]
    obtain ⟨b2, hsnd⟩ := holder_release_step_snd hs t hl acc e
    have hpair : holder_release_step hs t (hl, acc) e
        = ((holder_release_step hs t (hl, acc) e).1, acc ++ [(e.1, b2)]) := by
      rw [← hsnd]
    rw [hpair, ih]
    simp

theorem release_fold_log_mono (hs : Bool) (t : ℚ) (pre : List (HolderKey × Bus)) :
    ∀ (hl : HolderLog) (acc : List (HolderKey × Bus)) (r s y : String),
      y ∈ lookup2D r s hl.route_stop_departure_bus_id_seq →
      y ∈ lookup2D r s
        ((pre.foldl (holder_release_step hs t) (hl, acc)).1).route_stop_departure_bus_id_seq := by
  induction pre with
  | nil => intro hl acc r s y h; exact h
  | cons e rest ih =>
    intro hl acc r s y h
    rw [List.foldl_cons]
    have hstep := holder_release_step_log hs t hl acc e
    have h2 : y ∈ lookup2D r s
        (holder_release_step hs t (hl, acc) e).1.route_stop_departure_bus_id_seq := by
      rw [hstep]
      exact mem_lookup2D_dAppend2 _ _ _ _ h
    have hpair : holder_release_step hs t (hl, acc) e
        = ((holder_release_step hs t (hl, acc) e).1, (holder_release_step hs t (hl, acc) e).2) :=
      rfl
    rw [hpair]
    exact ih _ _ r s y h2

theorem release_fold_log_mem (hs : Bool) (t : ℚ) (pre : List (HolderKey × Bus)) :
    ∀ (hl : HolderLog) (acc : List (HolderKey × Bus)) (k : HolderKey) (b : Bus),
      (k, b) ∈ pre →
      k.2.2 ∈ lookup2D k.2.1 k.1
        ((pre.foldl (holder_release_step hs t) (hl, acc)).1).route_stop_departure_bus_id_seq := by
  induction pre with
  | nil => intro hl acc k b hm; simp at hm
  | cons e rest ih =>
    intro hl acc k b hm
    rw [List.foldl_cons]
    rcases List.mem_cons.mp hm with heq | htl
    · have hstep := holder_release_step_log hs t hl acc e
      have h2 : k.2.2 ∈ lookup2D k.2.1 k.1
          (holder_release_step hs t (hl, acc) e).1.route_stop_departure_bus_id_seq := by
        rw [hstep, show e = (k, b) from heq.symm]
        exact self_mem_lookup2D_dAppend2 _ _ _ _
      have hpair : holder_release_step hs t (hl, acc) e
          = ((holder_release_step hs t (hl, acc) e).1,
             (holder_release_step hs t (hl, acc) e).2) := rfl
      rw [hpair]
      exact release_fold_log_mono hs t rest _ _ k.2.1 k.1 k.2.2 h2
    · exact ih _ _ k b htl

/-- Claim C2: in Holder.operation, every registered bus with an assigned
hold time has it decremented by exactly one; if the decremented value is
zero or below the bus is removed from the holder map, appears in the
released list (hence in the released-at-its-stop list), and its departure
bookkeeping is recorded in the holder log; an undecided (none) hold time is
left unchanged and the bus is not released. -/
theorem C2_holder_operation (h : Holder) (t : ℚ) (k : HolderKey) (b : Bus)
    (hnd : (h.identifier.map Prod.fst).Nodup) :
    (∀ τ, lookupAL k h.identifier = some (b, some τ) → τ - 1 ≤ 0 →
      lookupAL k (h.operation t).1.identifier = none
      ∧ (∃ b2, (k, b2) ∈ (h.operation t).2 ∧ b2 ∈ stop_held_buses (h.operation t).2 k.1)
      ∧ k.2.2 ∈ lookup2D k.2.1 k.1
          (h.operation t).1.holder_log.route_stop_departure_bus_id_seq)
    ∧ (∀ τ, lookupAL k h.identifier = some (b, some τ) → 0 < τ - 1 →
      lookupAL k (h.operation t).1.identifier = some (b, some (τ - 1))
      ∧ ∀ b2, (k, b2) ∉ (h.operation t).2)
    ∧ (lookupAL k h.identifier = some (b, none) →
      lookupAL k (h.operation t).1.identifier = some (b, none)
      ∧ ∀ b2, (k, b2) ∉ (h.operation t).2) := by
  have hkeys : ((h.operation t).2).map Prod.fst = (operationReleased h.identifier).map Prod.fst := by
    have := release_fold_snd_keys h.has_schedule t (operationReleased h.identifier)
      h.holder_log []
    simpa using this
  have hnotrel : ∀ τv, lookupAL k h.identifier = some (b, τv) →
      (τv = none ∨ ∃ τ, τv = some τ ∧ 0 < τ - 1) →
      ∀ b2, (k, b2) ∉ (h.operation t).2 := by
    intro τv hlk hcase b2 hmem
    have hkey : k ∈ ((h.operation t).2).map Prod.fst :=
      List.mem_map.mpr ⟨(k, b2), hmem, rfl⟩
    rw [hkeys] at hkey
    obtain ⟨b3, hb3⟩ := exists_snd_of_mem_map_fst hkey
    obtain ⟨τ2, hmem2, hτ2⟩ := eq_of_mem_operationReleased hb3
    have hl3 := lookupAL_of_mem_nodup hnd hmem2
    rw [hlk] at hl3
    injection hl3 with hl3
    have hτv : τv = some τ2 := congrArg Prod.snd hl3
    rcases hcase with hn | ⟨τ, hτ, hpos⟩
    · rw [hn] at hτv
      cases hτv
    · rw [hτ] at hτv
      injection hτv with hτv
      rw [hτv] at hpos
      exact absurd hτ2 (not_le.mpr hpos)
  refine ⟨?_, ?_, ?_⟩
  · intro τ hlk hτ
    have hpre : (k, b) ∈ operationReleased h.identifier :=
      mem_operationReleased_of_lookup hlk hτ
    refine ⟨lookupAL_operationKept_released hnd hlk hτ, ?_, ?_⟩
    · have hkey : k ∈ ((h.operation t).2).map Prod.fst := by
        rw [hkeys]
        exact List.mem_map.mpr ⟨(k, b), hpre, rfl⟩
      obtain ⟨b2, hb2⟩ := exists_snd_of_mem_map_fst hkey
      refine ⟨b2, hb2, ?_⟩
      exact List.mem_map.mpr ⟨(k, b2), List.mem_filter.mpr ⟨hb2, by simp⟩, rfl⟩
    · exact release_fold_log_mem h.has_schedule t (operationReleased h.identifier)
        h.holder_log [] k b hpre
  · intro τ hlk hpos
    exact ⟨lookupAL_operationKept_decremented hlk (not_le.mpr hpos),
      hnotrel (some τ) hlk (Or.inr ⟨τ, rfl, hpos⟩)⟩
  · intro hlk
    exact ⟨lookupAL_operationKept_undecided hlk, hnotrel none hlk (Or.inl rfl)⟩

/-- A concrete bus used by witnesses. -/
def witnessBus : Bus := ⟨"r", "1", "holding", emptyBusLog⟩

/-- A concrete holder with one registered bus whose hold time is 1, used by
witnesses. -/
def witnessHolder : Holder := ⟨[(("s", "r", "1"), witnessBus, some 1)], emptyHolderLog, false⟩

/-- Claim C2 witness: the concrete holder holds one bus with hold time 1;
one operation tick decrements it to 0 and releases the bus at stop s with
its departure recorded. -/
theorem C2_holder_operation_witness :
    (witnessHolder.identifier.map Prod.fst).Nodup
    ∧ ((∀ τ, lookupAL (("s", "r", "1") : HolderKey) witnessHolder.identifier
          = some (witnessBus, some τ) → τ - 1 ≤ 0 →
        lookupAL (("s", "r", "1") : HolderKey) (witnessHolder.operation 0).1.identifier = none
        ∧ (∃ b2, ((("s", "r", "1") : HolderKey), b2) ∈ (witnessHolder.operation 0).2
            ∧ b2 ∈ stop_held_buses (witnessHolder.operation 0).2 "s")
        ∧ "1" ∈ lookup2D "r" "s"
            (witnessHolder.operation 0).1.holder_log.route_stop_departure_bus_id_seq)
      ∧ (∀ τ, lookupAL (("s", "r", "1") : HolderKey) witnessHolder.identifier
          = some (witnessBus, some τ) → 0 < τ - 1 →
        lookupAL (("s", "r", "1") : HolderKey) (witnessHolder.operation 0).1.identifier
          = some (witnessBus, some (τ - 1))
        ∧ ∀ b2, ((("s", "r", "1") : HolderKey), b2) ∉ (witnessHolder.operation 0).2)
      ∧ (lookupAL (("s", "r", "1") : HolderKey) witnessHolder.identifier
          = some (witnessBus, none) →
        lookupAL (("s", "r", "1") : HolderKey) (witnessHolder.operation 0).1.identifier
          = some (witnessBus, none)
        ∧ ∀ b2, ((("s", "r", "1") : HolderKey), b2) ∉ (witnessHolder.operation 0).2)) :=
  ⟨by decide, C2_holder_operation witnessHolder 0 ("s", "r", "1") witnessBus (by decide)⟩

/- ----------------------------------------------------------------- -/
/- Link: travel-time sampling floor (link.py)                          -/
/- ----------------------------------------------------------------- -/

/-- Embedding of the clamp in DistributionLink.enter_bus (link.py line 61):
the sampled travel time is floored at 10. -/
def clamp_sampled_tt (sampled_tt : ℚ) : ℚ := max 10 sampled_tt

/-- Embedding of the speed assignment in DistributionLink.enter_bus
(link.py line 66): bus speed is link length over the clamped travel time. -/
def bus_speed (length sampled_tt : ℚ) : ℚ := length / clamp_sampled_tt sampled_tt

/-- Claim C8: the clamped travel time is always strictly positive (a
non-positive sample is floored to 10 rather than failing), so the bus speed
length / travel time is well defined and positive for a positive link
length. -/
theorem C8_travel_time_clamped (sampled_tt length : ℚ) (hlen : 0 < length) :
    0 < clamp_sampled_tt sampled_tt
    ∧ (sampled_tt ≤ 0 → clamp_sampled_tt sampled_tt = 10)
    ∧ 0 < bus_speed length sampled_tt := by
  have hpos : (0 : ℚ) < clamp_sampled_tt sampled_tt :=
    lt_of_lt_of_le (by norm_num) (le_max_left 10 sampled_tt)
  refine ⟨hpos, ?_, div_pos hlen hpos⟩
  intro hle
  rw [clamp_sampled_tt, max_eq_left (le_trans hle (by norm_num))]

/-- Claim C8 witness: a 500 m link with a sampled travel time of -3 gets the
floor of 10 and a positive speed. -/
theorem C8_travel_time_clamped_witness :
    (0 : ℚ) < 500
    ∧ (0 < clamp_sampled_tt (-3)
       ∧ ((-3 : ℚ) ≤ 0 → clamp_sampled_tt (-3) = 10)
       ∧ 0 < bus_speed 500 (-3)) :=
  ⟨by norm_num, C8_travel_time_clamped (-3) 500 (by norm_num)⟩

/- ----------------------------------------------------------------- -/
/- PaxQueue: boarding truncation (pax_queue.py)                        -/
/- ----------------------------------------------------------------- -/

/-- Passenger as the queue sees it (pax.py): identity and arrival time. -/
structure Pax where
  pax_id : ℕ
  arrival_time : ℚ
deriving DecidableEq

/-- The board-truncation policy of a stop (pax_queue.py constructor). -/
inductive BoardTruncation
  | arrival
  | rtd
deriving DecidableEq

/-- Boarding state of a bus (bus.py board_status). -/
inductive BoardStatus
  | boarding
  | idle
deriving DecidableEq

/-- Bus as PaxQueue.board sees it: route id, board status and the arrival
time this bus recorded at this stop (bus_log.stop_arrival_time[stop_id]). -/
structure BoardingBus where
  route_id : String
  board_status : BoardStatus
  stop_arrival_time : ℚ

/-- Embedding of the PaxQueue state (pax_queue.py lines 16-27): queue groups
keyed by the exact route set that serves them, plus the truncation policy. -/
structure PaxQueue where
  route_group_paxs : List (List String × List Pax)
  board_truncation : BoardTruncation

/-- Embedding of PaxQueue.get_served_groups (pax_queue.py lines 120-133):
the groups whose route set contains the route of the bus. -/
def get_served_groups (q : PaxQueue) (bus_route_id : String) :
    List (List String × List Pax) :=
  q.route_group_paxs.filter (fun g => bus_route_id ∈ g.1)

/-- Embedding of PaxQueue.filter_pax_arrival_after_bus_arrival (pax_queue.py
lines 135-138): keep the passengers that arrived strictly before the bus. -/
def filter_pax_arrival_after_bus_arrival (bus_arrival : ℚ) (paxs : List Pax) : List Pax :=
  paxs.filter (fun p => p.arrival_time < bus_arrival)


/-- The assertion failure of PaxQueue.board (pax_queue.py line 61): the
first served group must be an exclusive single-route group, otherwise the
source raises AssertionError before any boarding happens. -/
inductive BoardError
  | exclusiveGroupNotSingleton
deriving DecidableEq

/-- Embedding of PaxQueue.board (pax_queue.py lines 39-79): a boarding bus
only accumulates its fraction; an idle bus takes the first served group,
asserts that it is keyed by exactly one route (pax_queue.py line 61, an
AssertionError otherwise), truncates its passengers according to the
policy, and puts the head of the eligible list on board, removing it from
the group.  The ok value carries the queue and the passenger who started
boarding, if any. -/
def PaxQueue.board (q : PaxQueue) (bus : BoardingBus) :
    Except BoardError (PaxQueue × Option Pax) :=
  match bus.board_status with
  | .boarding => .ok (q, none)
  | .idle =>
    match get_served_groups q bus.route_id with
    | [] => .ok (q, none)
    | exclusive_group :: _ =>
      if exclusive_group.1.length = 1 then
        let paxs := exclusive_group.2
        let board_paxs :=
          match q.board_truncation with
          | .arrival => filter_pax_arrival_after_bus_arrival bus.stop_arrival_time paxs
          | .rtd => paxs
        match board_paxs with
        | [] => .ok (q, none)
        | head_pax :: _ =>
          let groups2 := q.route_group_paxs.map
            (fun g => if g.1 = exclusive_group.1 then (g.1, g.2.erase head_pax) else g)
          .ok ({ q with route_group_paxs := groups2 }, some head_pax)
      else .error .exclusiveGroupNotSingleton


/-- Embedding of PaxQueue.check_remaining_pax_num (pax_queue.py lines
98-118): count, over every served group, the passengers the policy lets
this bus serve. -/
def check_remaining_pax_num (q : PaxQueue) (bus : BoardingBus) : ℕ :=
  ((get_served_groups q bus.route_id).map (fun g =>
    match q.board_truncation with
    | .arrival => (filter_pax_arrival_after_bus_arrival bus.stop_arrival_time g.2).length
    | .rtd => g.2.length)).sum


/-- Claim C7: under the arrival truncation rule only passengers who arrived
strictly before the bus arrival timestamp can board (any passenger put on
board satisfies the strict inequality, and, when the source assertion that
served groups are single-route holds, a queue of late arrivers yields no
boarder and zero remaining obligations); under the rtd rule the full queue
at call time is eligible with no cutoff (the head of the first served group
boards and the remaining count is the full group sizes); a first served
group keyed by several routes makes board fail with the AssertionError. -/
theorem C7_board_truncation (q : PaxQueue) (bus : BoardingBus)
    (hidle : bus.board_status = .idle) :
    (q.board_truncation = .arrival → ∀ q2 p, q.board bus = .ok (q2, some p) →
        p.arrival_time < bus.stop_arrival_time)
    ∧ (q.board_truncation = .arrival →
        (∀ g ∈ get_served_groups q bus.route_id, g.1.length = 1) →
        (∀ g ∈ get_served_groups q bus.route_id, ∀ p ∈ g.2,
          bus.stop_arrival_time ≤ p.arrival_time) →
        q.board bus = .ok (q, none) ∧ check_remaining_pax_num q bus = 0)
    ∧ (q.board_truncation = .rtd →
        (∀ g ∈ get_served_groups q bus.route_id, g.1.length = 1) →
        (∃ q2, q.board bus = .ok (q2,
            (get_served_groups q bus.route_id).head?.bind (fun g => g.2.head?)))
        ∧ check_remaining_pax_num q bus
          = ((get_served_groups q bus.route_id).map (fun g => g.2.length)).sum)
    ∧ (∀ g rest, get_served_groups q bus.route_id = g :: rest → g.1.length ≠ 1 →
        q.board bus = .error .exclusiveGroupNotSingleton) := by
  obtain ⟨rid, bstat, barr⟩ := bus
  obtain ⟨groups, trunc⟩ := q
  have hb : bstat = .idle := hidle
  subst hb
  refine ⟨?_, ?_, ?_, ?_⟩
  · intro htr q2 p hp
    have ht : trunc = .arrival := htr
    subst ht
    cases hg : get_served_groups ⟨groups, .arrival⟩ rid with
    | nil => simp [PaxQueue.board, hg] at hp
    | cons g rest =>
      by_cases hlen : g.1.length = 1
      · cases hf : filter_pax_arrival_after_bus_arrival barr g.2 with
        | nil => simp [PaxQueue.board, hg, hlen, hf] at hp
        | cons hd tail =>
          have hpe : hd = p := by
            have h := hp
            simp [PaxQueue.board, hg, hlen, hf] at h
            exact h.2
          have hmem : p ∈ filter_pax_arrival_after_bus_arrival barr g.2 := by
            rw [hf, hpe]
            exact List.mem_cons_self _ _
          have := List.mem_filter.mp hmem
          exact of_decide_eq_true this.2
      · simp [PaxQueue.board, hg, hlen] at hp
  · intro htr hexcl hall
    have ht : trunc = .arrival := htr
    subst ht
    constructor
    · cases hg : get_served_groups ⟨groups, .arrival⟩ rid with
      | nil => simp [PaxQueue.board, hg]
      | cons g rest =>
        have hgm : g ∈ get_served_groups ⟨groups, .arrival⟩ rid := by
          rw [hg]
          exact List.mem_cons_self _ _
        have hlen := hexcl g hgm
        have hf : filter_pax_arrival_after_bus_arrival barr g.2 = [] := by
          rw [filter_pax_arrival_after_bus_arrival, List.filter_eq_nil_iff]
          intro p hp
          simp only [decide_eq_true_eq]
          exact not_lt.mpr (hall g hgm p hp)
        simp [PaxQueue.board, hg, hlen, hf]
    · rw [check_remaining_pax_num]
      apply List.sum_eq_zero
      intro x hx
      obtain ⟨g, hgm, hge⟩ := List.mem_map.mp hx
      have hf : filter_pax_arrival_after_bus_arrival barr g.2 = [] := by
        rw [filter_pax_arrival_after_bus_arrival, List.filter_eq_nil_iff]
        intro p hp
        simp only [decide_eq_true_eq]
        exact not_lt.mpr (hall g hgm p hp)
      rw [← hge]
      simp [hf]
  · intro htr hexcl
    have ht : trunc = .rtd := htr
    subst ht
    constructor
    · cases hg : get_served_groups ⟨groups, .rtd⟩ rid with
      | nil => exact ⟨⟨groups, .rtd⟩, by simp [PaxQueue.board, hg]⟩
      | cons g rest =>
        have hgm : g ∈ get_served_groups ⟨groups, .rtd⟩ rid := by
          rw [hg]
          exact List.mem_cons_self _ _
        have hlen := hexcl g hgm
        cases hp : g.2 with
        | nil => exact ⟨⟨groups, .rtd⟩, by simp [PaxQueue.board, hg, hlen, hp]⟩
        | cons hd tail =>
          refine ⟨⟨groups.map
              (fun g2 => if g2.1 = g.1 then (g2.1, g2.2.erase hd) else g2), .rtd⟩, ?_⟩
          simp [PaxQueue.board, hg, hlen, hp]
    · simp [check_remaining_pax_num]
  · intro g rest hg hlen
    simp [PaxQueue.board, hg, hlen]

/-- Claim C7 witness: a queue with one exclusive single-route group for
route r holding an early passenger (arrival 5) and a late one (arrival 20),
and an idle bus that arrived at time 10. -/
theorem C7_board_truncation_witness :
    (BoardingBus.mk "r" .idle 10).board_status = .idle
    ∧ (((PaxQueue.mk [(["r"], [Pax.mk 1 5, Pax.mk 2 20])] .arrival).board_truncation
          = .arrival →
        ∀ q2 p, (PaxQueue.mk [(["r"], [Pax.mk 1 5, Pax.mk 2 20])] .arrival).board
            (BoardingBus.mk "r" .idle 10) = .ok (q2, some p) →
          p.arrival_time < (BoardingBus.mk "r" .idle 10).stop_arrival_time)
    ∧ ((PaxQueue.mk [(["r"], [Pax.mk 1 5, Pax.mk 2 20])] .arrival).board_truncation
          = .arrival →
        (∀ g ∈ get_served_groups (PaxQueue.mk [(["r"], [Pax.mk 1 5, Pax.mk 2 20])] .arrival)
            (BoardingBus.mk "r" .idle 10).route_id, g.1.length = 1) →
        (∀ g ∈ get_served_groups (PaxQueue.mk [(["r"], [Pax.mk 1 5, Pax.mk 2 20])] .arrival)
            (BoardingBus.mk "r" .idle 10).route_id, ∀ p ∈ g.2,
          (BoardingBus.mk "r" .idle 10).stop_arrival_time ≤ p.arrival_time) →
        (PaxQueue.mk [(["r"], [Pax.mk 1 5, Pax.mk 2 20])] .arrival).board
            (BoardingBus.mk "r" .idle 10)
          = .ok ((PaxQueue.mk [(["r"], [Pax.mk 1 5, Pax.mk 2 20])] .arrival), none)
        ∧ check_remaining_pax_num (PaxQueue.mk [(["r"], [Pax.mk 1 5, Pax.mk 2 20])] .arrival)
            (BoardingBus.mk "r" .idle 10) = 0)
    ∧ ((PaxQueue.mk [(["r"], [Pax.mk 1 5, Pax.mk 2 20])] .arrival).board_truncation = .rtd →
        (∀ g ∈ get_served_groups (PaxQueue.mk [(["r"], [Pax.mk 1 5, Pax.mk 2 20])] .arrival)
            (BoardingBus.mk "r" .idle 10).route_id, g.1.length = 1) →
        (∃ q2, (PaxQueue.mk [(["r"], [Pax.mk 1 5, Pax.mk 2 20])] .arrival).board
            (BoardingBus.mk "r" .idle 10) = .ok (q2,
          (get_served_groups (PaxQueue.mk [(["r"], [Pax.mk 1 5, Pax.mk 2 20])] .arrival)
              (BoardingBus.mk "r" .idle 10).route_id).head?.bind (fun g => g.2.head?)))
        ∧ check_remaining_pax_num (PaxQueue.mk [(["r"], [Pax.mk 1 5, Pax.mk 2 20])] .arrival)
            (BoardingBus.mk "r" .idle 10)
          = ((get_served_groups (PaxQueue.mk [(["r"], [Pax.mk 1 5, Pax.mk 2 20])] .arrival)
              (BoardingBus.mk "r" .idle 10).route_id).map (fun g => g.2.length)).sum)
    ∧ (∀ g rest, get_served_groups (PaxQueue.mk [(["r"], [Pax.mk 1 5, Pax.mk 2 20])] .arrival)
          (BoardingBus.mk "r" .idle 10).route_id = g :: rest → g.1.length ≠ 1 →
        (PaxQueue.mk [(["r"], [Pax.mk 1 5, Pax.mk 2 20])] .arrival).board
            (BoardingBus.mk "r" .idle 10) = .error .exclusiveGroupNotSingleton)) := by
  refine ⟨rfl, ?_⟩
  exact C7_board_truncation (PaxQueue.mk [(["r"], [Pax.mk 1 5, Pax.mk 2 20])] .arrival)
    (BoardingBus.mk "r" .idle 10) rfl

/- ----------------------------------------------------------------- -/
/- Terminal: periodic dispatch (terminal.py)                           -/
/- ----------------------------------------------------------------- -/

/-- Route data the terminal reads (route.py): id and schedule headway.  The
dispatch test uses int(schedule_headway); the truncated integer headway is
modelled directly. -/
structure Route_Details where
  route_id : String
  schedule_headway : ℕ
deriving DecidableEq

/-- Embedding of the Terminal state (terminal.py lines 18-36): its routes
and the per-route dispatch counter. -/
structure Terminal where
  routes : List Route_Details
  route_round_count : List (String × ℕ)

/-- Embedding of the Terminal constructor (terminal.py line 36): every
route starts with dispatch counter 1. -/
def Terminal.initT (routes : List Route_Details) : Terminal :=
  ⟨routes, routes.map (fun r => (r.route_id, 1))⟩

/-- Embedding of the per-route loop body of Terminal.dispatch (terminal.py
lines 54-68): when t is a positive multiple of the route headway, a bus
with id equal to the current counter is dispatched and the counter is
incremented.  The accumulator carries the counter dict and the dispatched
(route id, bus id) list. -/
def dispatch_step (t : ℕ) (acc : List (String × ℕ) × List (String × ℕ))
    (route : Route_Details) : List (String × ℕ) × List (String × ℕ) :=
  if t % route.schedule_headway = 0 ∧ 0 < t then
    let bus_id := (lookupAL route.route_id acc.1).getD 0
    (updateAL route.route_id (bus_id + 1) acc.1, acc.2 ++ [(route.route_id, bus_id)])
  else acc

/-- Embedding of Terminal.dispatch (terminal.py lines 43-70). -/
def Terminal.dispatch (tm : Terminal) (t : ℕ) : Terminal × List (String × ℕ) :=
  let res := tm.routes.foldl (dispatch_step t) (tm.route_round_count, [])
  (⟨tm.routes, res.1⟩, res.2)

/-- Run the terminal dispatch at every tick 0, 1, ..., T, collecting all
dispatched buses as (tick, route id, bus id). -/
def Terminal.run (tm : Terminal) : ℕ → Terminal × List (ℕ × String × ℕ)
  | 0 =>
    let d := tm.dispatch 0
    (d.1, d.2.map (fun e => ((0 : ℕ), e.1, e.2)))
  | T + 1 =>
    let r := Terminal.run tm T
    let d := r.1.dispatch (T + 1)
    (d.1, r.2 ++ d.2.map (fun e => (T + 1, e.1, e.2)))

theorem dispatch_fold_zero (routes : List Route_Details)
    (acc : List (String × ℕ) × List (String × ℕ)) :
    routes.foldl (dispatch_step 0) acc = acc := by
  induction routes generalizing acc with
  | nil => rfl
  | cons r rest ih =>
    rw [List.foldl_cons, show dispatch_step 0 acc r = acc from if_neg (by simp)]
    exact ih acc

theorem dispatch_fold_not_mem (t : ℕ) (routes : List Route_Details)
    (counts : List (String × ℕ)) (buses : List (String × ℕ)) (rid : String)
    (hnot : rid ∉ routes.map Route_Details.route_id) :
    lookupAL rid (routes.foldl (dispatch_step t) (counts, buses)).1 = lookupAL rid counts
    ∧ (routes.foldl (dispatch_step t) (counts, buses)).2.filter (fun e => e.1 = rid)
      = buses.filter (fun e => e.1 = rid) := by
  induction routes generalizing counts buses with
  | nil => exact ⟨rfl, rfl⟩
  | cons r rest ih =>
    rw [List.map_cons, List.mem_cons, not_or] at hnot
    have hne : r.route_id ≠ rid := fun he => hnot.1 he.symm
    rw [List.foldl_cons]
    by_cases hc : t % r.schedule_headway = 0 ∧ 0 < t
    · rw [show dispatch_step t (counts, buses) r
          = (updateAL r.route_id ((lookupAL r.route_id counts).getD 0 + 1) counts,
             buses ++ [(r.route_id, (lookupAL r.route_id counts).getD 0)]) from if_pos hc]
      obtain ⟨h1, h2⟩ := ih _ _ hnot.2
      refine ⟨?_, ?_⟩
      · rw [h1, lookupAL_updateAL_ne _ _ hne]
      · rw [h2, List.filter_append]
        simp [hne]
    · rw [show dispatch_step t (counts, buses) r = (counts, buses) from if_neg hc]
      exact ih _ _ hnot.2

theorem dispatch_fold_mem (t : ℕ) (routes : List Route_Details)
    (counts : List (String × ℕ)) (buses : List (String × ℕ)) (r : Route_Details)
    (hnd : (routes.map Route_Details.route_id).Nodup) (hr : r ∈ routes) :
    lookupAL r.route_id (routes.foldl (dispatch_step t) (counts, buses)).1
      = (if t % r.schedule_headway = 0 ∧ 0 < t
         then some ((lookupAL r.route_id counts).getD 0 + 1)
         else lookupAL r.route_id counts)
    ∧ (routes.foldl (dispatch_step t) (counts, buses)).2.filter (fun e => e.1 = r.route_id)
      = buses.filter (fun e => e.1 = r.route_id)
        ++ (if t % r.schedule_headway = 0 ∧ 0 < t
            then [(r.route_id, (lookupAL r.route_id counts).getD 0)] else []) := by
  induction routes generalizing counts buses with
  | nil => simp at hr
  | cons r0 rest ih =>
    rw [List.map_cons, List.nodup_cons] at hnd
    rw [List.foldl_cons]
    rcases List.mem_cons.mp hr with heq | htl
    · subst heq
      have hnot : r.route_id ∉ rest.map Route_Details.route_id := hnd.1
      by_cases hc : t % r.schedule_headway = 0 ∧ 0 < t
      · rw [show dispatch_step t (counts, buses) r
            = (updateAL r.route_id ((lookupAL r.route_id counts).getD 0 + 1) counts,
               buses ++ [(r.route_id, (lookupAL r.route_id counts).getD 0)]) from if_pos hc]
        obtain ⟨h1, h2⟩ := dispatch_fold_not_mem t rest _ _ r.route_id hnot
        refine ⟨?_, ?_⟩
        · rw [h1, lookupAL_updateAL_self, if_pos hc]
        · rw [h2, List.filter_append, if_pos hc]
          simp
      · rw [show dispatch_step t (counts, buses) r = (counts, buses) from if_neg hc]
        obtain ⟨h1, h2⟩ := dispatch_fold_not_mem t rest counts buses r.route_id hnot
        rw [if_neg hc, if_neg hc, List.append_nil]
        exact ⟨h1, h2⟩
    · have hne : r0.route_id ≠ r.route_id := by
        intro he
        exact hnd.1 (he ▸ List.mem_map.mpr ⟨r, htl, rfl⟩)
      by_cases hc0 : t % r0.schedule_headway = 0 ∧ 0 < t
      · rw [show dispatch_step t (counts, buses) r0
            = (updateAL r0.route_id ((lookupAL r0.route_id counts).getD 0 + 1) counts,
               buses ++ [(r0.route_id, (lookupAL r0.route_id counts).getD 0)]) from if_pos hc0]
        obtain ⟨h1, h2⟩ := ih _ _ hnd.2 htl
        refine ⟨?_, ?_⟩
        · rw [h1, lookupAL_updateAL_ne _ _ hne]
        · rw [h2, List.filter_append, lookupAL_updateAL_ne _ _ hne]
          simp [hne]
      · rw [show dispatch_step t (counts, buses) r0 = (counts, buses) from if_neg hc0]
        exact ih _ _ hnd.2 htl

theorem run_routes (tm : Terminal) : ∀ T, (tm.run T).1.routes = tm.routes := by
  intro T
  induction T with
  | zero => rfl
  | succ T ih =>
    show ((tm.run T).1.dispatch (T + 1)).1.routes = tm.routes
    rw [show ((tm.run T).1.dispatch (T + 1)).1.routes = (tm.run T).1.routes from rfl, ih]

theorem lookupAL_initT (routes : List Route_Details) (rid : String)
    (hm : rid ∈ routes.map Route_Details.route_id) :
    lookupAL rid (routes.map (fun r => (r.route_id, 1))) = some 1 := by
  induction routes with
  | nil => simp at hm
  | cons r rest ih =>
    by_cases he : r.route_id = rid
    · show (if r.route_id = rid then some 1 else _) = some 1
      rw [if_pos he]
    · rw [List.map_cons, List.mem_cons] at hm
      rcases hm with h1 | h1
      · exact absurd h1.symm he
      · show (if r.route_id = rid then some 1 else _) = some 1
        rw [if_neg he]
        exact ih h1

theorem filter_tag_map (t : ℕ) (rid : String) (l : List (String × ℕ)) :
    ((l.map (fun e => (t, e.1, e.2))).filter (fun x => x.2.1 = rid))
      = (l.filter (fun e => e.1 = rid)).map (fun e => (t, e.1, e.2)) := by
  induction l with
  | nil => rfl
  | cons e rest ih => by_cases he : e.1 = rid <;> simp [he, ih]

theorem terminal_run_closed_form (routes : List Route_Details) (r : Route_Details)
    (hnd : (routes.map Route_Details.route_id).Nodup) (hr : r ∈ routes) :
    ∀ T, ((Terminal.initT routes).run T).2.filter (fun e => e.2.1 = r.route_id)
        = (List.range' 1 (T / r.schedule_headway)).map
            (fun j => (j * r.schedule_headway, r.route_id, j))
      ∧ lookupAL r.route_id ((Terminal.initT routes).run T).1.route_round_count
        = some (T / r.schedule_headway + 1) := by
  intro T
  induction T with
  | zero =>
    have hd : (Terminal.initT routes).dispatch 0
        = (⟨(Terminal.initT routes).routes, (Terminal.initT routes).route_round_count⟩, []) := by
      simp only [Terminal.dispatch, dispatch_fold_zero]
    constructor
    · show ((((Terminal.initT routes).dispatch 0).2).map
          (fun e => ((0 : ℕ), e.1, e.2))).filter (fun e => e.2.1 = r.route_id) = _
      rw [hd]
      simp [Nat.zero_div]
    · show lookupAL r.route_id ((Terminal.initT routes).dispatch 0).1.route_round_count = _
      rw [hd]
      simp only [Nat.zero_div]
      exact lookupAL_initT routes r.route_id (List.mem_map.mpr ⟨r, hr, rfl⟩)
  | succ T ih =>
    obtain ⟨ihf, ihc⟩ := ih
    have hroutes : ((Terminal.initT routes).run T).1.routes = routes := run_routes _ T
    have hfold := dispatch_fold_mem (T + 1) routes
      ((Terminal.initT routes).run T).1.route_round_count [] r hnd hr
    have hfold2 : ((Terminal.initT routes).run T).1.routes.foldl (dispatch_step (T + 1))
        (((Terminal.initT routes).run T).1.route_round_count, [])
        = routes.foldl (dispatch_step (T + 1))
            (((Terminal.initT routes).run T).1.route_round_count, []) := by
      rw [hroutes]
    have hrun2 : ((Terminal.initT routes).run (T + 1)).2
        = ((Terminal.initT routes).run T).2
          ++ ((((Terminal.initT routes).run T).1.dispatch (T + 1)).2).map
              (fun e => (T + 1, e.1, e.2)) := rfl
    have hrunc : ((Terminal.initT routes).run (T + 1)).1.route_round_count
        = (((Terminal.initT routes).run T).1.routes.foldl (dispatch_step (T + 1))
            (((Terminal.initT routes).run T).1.route_round_count, [])).1 := rfl
    have hdisp2 : (((Terminal.initT routes).run T).1.dispatch (T + 1)).2
        = (((Terminal.initT routes).run T).1.routes.foldl (dispatch_step (T + 1))
            (((Terminal.initT routes).run T).1.route_round_count, [])).2 := rfl
    by_cases hm : (T + 1) % r.schedule_headway = 0
    · have hdvd : r.schedule_headway ∣ (T + 1) := Nat.dvd_of_mod_eq_zero hm
      have hdiv : (T + 1) / r.schedule_headway = T / r.schedule_headway + 1 := by
        rw [Nat.succ_div, if_pos hdvd]
      have hcond : (T + 1) % r.schedule_headway = 0 ∧ 0 < T + 1 := ⟨hm, Nat.succ_pos T⟩
      constructor
      · rw [hrun2, List.filter_append, ihf, hdisp2, hfold2, filter_tag_map,
          hfold.2, ihc]
        rw [if_pos hcond]
        have hmul : (1 + T / r.schedule_headway) * r.schedule_headway = T + 1 := by
          rw [Nat.add_comm 1 (T / r.schedule_headway), ← hdiv, Nat.div_mul_cancel hdvd]
        rw [hdiv, List.range'_concat]
        simp only [List.map_append, List.filter_nil, List.nil_append, List.map_cons,
          List.map_nil, Option.getD_some, Nat.one_mul]
        rw [hmul, Nat.add_comm 1 (T / r.schedule_headway)]
      · rw [hrunc, hfold2, hfold.1, if_pos hcond, ihc, hdiv]
        rfl
    · have hndvd : ¬r.schedule_headway ∣ (T + 1) := fun hd => hm (Nat.mod_eq_zero_of_dvd hd)
      have hdiv : (T + 1) / r.schedule_headway = T / r.schedule_headway := by
        rw [Nat.succ_div, if_neg hndvd, Nat.add_zero]
      have hcond : ¬((T + 1) % r.schedule_headway = 0 ∧ 0 < T + 1) := fun hc => hm hc.1
      constructor
      · rw [hrun2, List.filter_append, ihf, hdisp2, hfold2, filter_tag_map, hfold.2,
          if_neg hcond, hdiv]
        simp
      · rw [hrunc, hfold2, hfold.1, if_neg hcond, ihc, hdiv]

/-- Claim C3: with the counter initialized to 1, a route dispatches exactly
at the positive multiples of its schedule headway: over ticks 0..T the
dispatched (tick, bus id) pairs of route r are exactly
(k x headway, k) for k = 1 .. T / headway, the bus ids are the sequential
values 1, 2, ... in order, no two dispatches of the route share a tick, a
triple (tick, r, id) occurs iff 1 <= id, id x headway <= T and
tick = id x headway, and the final counter is T / headway + 1. -/
theorem C3_terminal_dispatch (routes : List Route_Details) (r : Route_Details) (T : ℕ)
    (hnd : (routes.map Route_Details.route_id).Nodup) (hr : r ∈ routes)
    (hpos : 0 < r.schedule_headway) :
    ((Terminal.initT routes).run T).2.filter (fun e => e.2.1 = r.route_id)
      = (List.range' 1 (T / r.schedule_headway)).map
          (fun j => (j * r.schedule_headway, r.route_id, j))
    ∧ (((Terminal.initT routes).run T).2.filter (fun e => e.2.1 = r.route_id)).map
        (fun e => e.2.2) = List.range' 1 (T / r.schedule_headway)
    ∧ ((((Terminal.initT routes).run T).2.filter (fun e => e.2.1 = r.route_id)).map
        (fun e => e.1)).Nodup
    ∧ (∀ tick id, (tick, r.route_id, id) ∈ ((Terminal.initT routes).run T).2 ↔
        1 ≤ id ∧ id * r.schedule_headway ≤ T ∧ tick = id * r.schedule_headway)
    ∧ lookupAL r.route_id ((Terminal.initT routes).run T).1.route_round_count
      = some (T / r.schedule_headway + 1) := by
  obtain ⟨hf, hc⟩ := terminal_run_closed_form routes r hnd hr T
  refine ⟨hf, ?_, ?_, ?_, hc⟩
  · rw [hf, List.map_map]
    exact List.map_id _
  · rw [hf, List.map_map]
    have : ((fun e => e.1) ∘ fun j => (j * r.schedule_headway, r.route_id, j))
        = fun j => j * r.schedule_headway := rfl
    rw [this]
    refine List.Nodup.map ?_ (List.nodup_range' 1 _)
    intro a b hab
    exact Nat.eq_of_mul_eq_mul_right hpos hab
  · intro tick id
    have hmemf : (tick, r.route_id, id) ∈ ((Terminal.initT routes).run T).2 ↔
        (tick, r.route_id, id) ∈
          ((Terminal.initT routes).run T).2.filter (fun e => e.2.1 = r.route_id) := by
      rw [List.mem_filter]
      simp
    rw [hmemf, hf, List.mem_map]
    constructor
    · rintro ⟨j, hj, he⟩
      rw [List.mem_range'_1] at hj
      have hjid : j = id := congrArg (fun p => p.2.2) he
      have htick : tick = j * r.schedule_headway := (congrArg (fun p => p.1) he).symm
      subst hjid
      refine ⟨hj.1, ?_, htick⟩
      have : j ≤ T / r.schedule_headway := by omega
      exact (Nat.le_div_iff_mul_le hpos).mp this
    · rintro ⟨h1, h2, h3⟩
      refine ⟨id, ?_, ?_⟩
      · rw [List.mem_range'_1]
        have : id ≤ T / r.schedule_headway := (Nat.le_div_iff_mul_le hpos).mpr h2
        omega
      · rw [h3]

/-- Claim C3 witness: one route with headway 3 run through tick 7 dispatches
exactly at ticks 3 and 6 with bus ids 1 and 2 and final counter 3. -/
theorem C3_terminal_dispatch_witness :
    ((([⟨"r1", 3⟩] : List Route_Details).map Route_Details.route_id).Nodup
      ∧ (⟨"r1", 3⟩ : Route_Details) ∈ ([⟨"r1", 3⟩] : List Route_Details)
      ∧ 0 < (⟨"r1", 3⟩ : Route_Details).schedule_headway)
    ∧ (((Terminal.initT [⟨"r1", 3⟩]).run 7).2.filter (fun e => e.2.1 = "r1")
        = (List.range' 1 2).map (fun j => (j * 3, "r1", j))
      ∧ (((Terminal.initT [⟨"r1", 3⟩]).run 7).2.filter (fun e => e.2.1 = "r1")).map
          (fun e => e.2.2) = List.range' 1 2
      ∧ ((((Terminal.initT [⟨"r1", 3⟩]).run 7).2.filter (fun e => e.2.1 = "r1")).map
          (fun e => e.1)).Nodup
      ∧ (∀ tick id, (tick, "r1", id) ∈ ((Terminal.initT [⟨"r1", 3⟩]).run 7).2 ↔
          1 ≤ id ∧ id * 3 ≤ 7 ∧ tick = id * 3)
      ∧ lookupAL "r1" ((Terminal.initT [⟨"r1", 3⟩]).run 7).1.route_round_count
        = some 3) :=
  ⟨⟨by decide, by decide, by decide⟩,
    C3_terminal_dispatch [⟨"r1", 3⟩] ⟨"r1", 3⟩ 7 (by decide) (by decide) (by decide)⟩

theorem lookupAL_filterMap_seed {κ : Type u} {α β γ : Type v} [DecidableEq κ]
    (f : α → Option β) (g : β → γ) (l : List (κ × α)) (k : κ) (m : α) (v : β)
    (hl : lookupAL k l = some m) (hf : f m = some v) :
    lookupAL k (l.filterMap (fun p => (f p.2).map (fun x => (p.1, g x)))) = some (g v) := by
  induction l with
  | nil => cases hl
  | cons hd tl ih =>
    obtain ⟨k1, m1⟩ := hd
    rw [List.filterMap_cons]
    by_cases hk : k1 = k
    · rw [lookupAL, if_pos hk] at hl
      injection hl with hl
      subst hl
      simp only [hf, Option.map_some']
      rw [lookupAL, if_pos hk]
    · rw [lookupAL, if_neg hk] at hl
      cases hfm : f m1 with
      | none =>
        simp only [hfm, Option.map_none']
        exact ih hl
      | some w =>
        simp only [hfm, Option.map_some']
        rw [lookupAL, if_neg hk]
        exact ih hl

theorem lookupAL_map_values {κ : Type u} {α β : Type v} [DecidableEq κ] (g : α → β)
    (l : List (κ × α)) (k : κ) :
    lookupAL k (l.map (fun p => (p.1, g p.2))) = (lookupAL k l).map g := by
  induction l with
  | nil => rfl
  | cons hd tl ih =>
    obtain ⟨k1, m1⟩ := hd
    by_cases hk : k1 = k
    · rw [List.map_cons]
      rw [lookupAL, if_pos hk, lookupAL, if_pos hk, Option.map_some']
    · rw [List.map_cons]
      rw [lookupAL, if_neg hk, lookupAL, if_neg hk]
      exact ih

theorem lookupAL_appendAt_self {κ : Type u} {α : Type v} [DecidableEq κ] (k : κ) (x : α)
    (l : List (κ × List α)) :
    lookupAL k (appendAt k x l) = (lookupAL k l).map (fun xs => xs ++ [x]) := by
  induction l with
  | nil => rfl
  | cons hd tl ih =>
    obtain ⟨k1, xs⟩ := hd
    by_cases hk : k1 = k
    · rw [appendAt, if_pos hk, lookupAL, if_pos hk, lookupAL, if_pos hk, Option.map_some']
    · rw [appendAt, if_neg hk, lookupAL, if_neg hk, lookupAL, if_neg hk]
      exact ih

theorem lookup2AL_updateAL2_self {κ₁ : Type u} {κ₂ : Type u} {α : Type v} [DecidableEq κ₁]
    [DecidableEq κ₂] (k1 : κ₁) (k2 : κ₂) (v : α) (m : List (κ₁ × List (κ₂ × α))) :
    lookup2AL k1 k2 (updateAL2 k1 k2 v m) = some v := by
  induction m with
  | nil =>
    rw [updateAL2, lookup2AL, lookupAL, if_pos rfl, Option.some_bind, lookupAL, if_pos rfl]
  | cons hd tl ih =>
    obtain ⟨k, inner⟩ := hd
    by_cases hk : k = k1
    · rw [updateAL2, if_pos hk, lookup2AL, lookupAL, if_pos hk, Option.some_bind]
      exact lookupAL_updateAL_self _ _ _
    · rw [updateAL2, if_neg hk, lookup2AL, lookupAL, if_neg hk]
      exact ih

/-- Claim C6: for each schedule-tracked event kind (arrival at a stop,
ready-to-depart at a stop, departure from the holder) the recorded epsilon
equals the observed event time minus (the virtual-bus reference time at the
node plus scheduleHeadway times the per-route-per-node event count taken
before appending the current event); the event is appended to the sequence
at that index and the epsilon is stored; and the virtual bus is pre-seeded
at index 0 of every event sequence (bus id 0) with epsilon exactly 0. -/
theorem C6_epsilon_bookkeeping
    (sl : StopLog) (bl blr bld : BusRunningLog) (hl : HolderLog)
    (route bus stop : String) (t : ℚ)
    (seqA : List ℚ) (seqR : List String) (seqD : List String)
    (vbArr vbRtd vbDep : List (String × List (String × ℚ)))
    (mA mR mD : List (String × ℚ)) (va vr vd : ℚ)
    (hseqA : lookupAL route sl.route_arrival_time_seq = some seqA)
    (hseqR : lookupAL route sl.route_rtd_bus_id_seq = some seqR)
    (hseqD : lookup2AL route stop hl.route_stop_departure_bus_id_seq = some seqD)
    (hA1 : lookupAL route vbArr = some mA) (hA2 : lookupAL stop mA = some va)
    (hR1 : lookupAL route vbRtd = some mR) (hR2 : lookupAL stop mR = some vr)
    (hD1 : lookupAL route vbDep = some mD) (hD2 : lookupAL stop mD = some vd) :
    ((enter_stop_record sl bl route bus stop t).2.2
        = some (t - (bl.virtual_bus_stop_arrival_time stop
            + bl.schedule_headway * (seqA.length : ℚ)))
      ∧ lookupAL route (enter_stop_record sl bl route bus stop t).1.route_arrival_time_seq
        = some (seqA ++ [t])
      ∧ lookup2AL route bus
          (enter_stop_record sl bl route bus stop t).1.route_bus_epsilon_arrival
        = some (t - (bl.virtual_bus_stop_arrival_time stop
            + bl.schedule_headway * (seqA.length : ℚ))))
    ∧ ((leave_record sl blr route bus stop t).2.2
        = some (t - (blr.virtual_bus_stop_rtd_time stop
            + blr.schedule_headway * (seqR.length : ℚ)))
      ∧ lookupAL route (leave_record sl blr route bus stop t).1.route_rtd_bus_id_seq
        = some (seqR ++ [bus])
      ∧ lookup2AL route bus (leave_record sl blr route bus stop t).1.route_bus_epsilon_rtd
        = some (t - (blr.virtual_bus_stop_rtd_time stop
            + blr.schedule_headway * (seqR.length : ℚ))))
    ∧ ((holder_departure_record hl bld stop route bus t).2.2
        = some (t - (bld.virtual_bus_stop_departure_time stop
            + bld.schedule_headway * (seqD.length : ℚ)))
      ∧ lookup2D route stop
          (holder_departure_record hl bld stop route bus t).1.route_stop_departure_bus_id_seq
        = seqD ++ [bus])
    ∧ (lookupAL route (StopLog.initLog stop vbArr vbRtd true).route_arrival_time_seq
        = some [va]
      ∧ lookupAL route (StopLog.initLog stop vbArr vbRtd true).route_arrival_bus_id_seq
        = some ["0"]
      ∧ lookup2AL route "0"
          (StopLog.initLog stop vbArr vbRtd true).route_bus_epsilon_arrival = some 0
      ∧ lookupAL route (StopLog.initLog stop vbArr vbRtd true).route_rtd_time_seq
        = some [vr]
      ∧ lookupAL route (StopLog.initLog stop vbArr vbRtd true).route_rtd_bus_id_seq
        = some ["0"]
      ∧ lookup2AL route "0"
          (StopLog.initLog stop vbArr vbRtd true).route_bus_epsilon_rtd = some 0)
    ∧ (lookup2AL route stop
          (HolderLog.initLog vbDep true).route_stop_departure_time_seq = some [vd]
      ∧ lookup2AL route stop
          (HolderLog.initLog vbDep true).route_stop_departure_bus_id_seq = some ["0"]
      ∧ ((lookup2AL route stop
            (HolderLog.initLog vbDep true).route_stop_bus_epsilon_departure).bind
          (lookupAL "0")) = some 0) := by
  refine ⟨⟨?_, ?_, ?_⟩, ⟨?_, ?_, ?_⟩, ⟨?_, ?_⟩, ⟨?_, ?_, ?_, ?_, ?_, ?_⟩, ⟨?_, ?_, ?_⟩⟩
  · simp only [enter_stop_record, BusRunningLog.record_when_arrival, hseqA, Option.getD_some]
  · have h1 : (enter_stop_record sl bl route bus stop t).1.route_arrival_time_seq
        = appendAt route t sl.route_arrival_time_seq := by
      simp only [enter_stop_record, BusRunningLog.record_when_arrival,
        StopLog.record_when_bus_arrival, hseqA, Option.getD_some]
    rw [h1, lookupAL_appendAt_self, hseqA]
    rfl
  · have h1 : (enter_stop_record sl bl route bus stop t).1.route_bus_epsilon_arrival
        = updateAL2 route bus
            (t - (bl.virtual_bus_stop_arrival_time stop
              + bl.schedule_headway * (seqA.length : ℚ)))
            sl.route_bus_epsilon_arrival := by
      simp only [enter_stop_record, BusRunningLog.record_when_arrival,
        StopLog.record_when_bus_arrival, hseqA, Option.getD_some]
    rw [h1]
    exact lookup2AL_updateAL2_self _ _ _ _
  · simp only [leave_record, BusRunningLog.record_when_rtd, hseqR, Option.getD_some]
  · have h1 : (leave_record sl blr route bus stop t).1.route_rtd_bus_id_seq
        = appendAt route bus sl.route_rtd_bus_id_seq := by
      simp only [leave_record, BusRunningLog.record_when_rtd,
        StopLog.record_when_bus_rtd, hseqR, Option.getD_some]
    rw [h1, lookupAL_appendAt_self, hseqR]
    rfl
  · have h1 : (leave_record sl blr route bus stop t).1.route_bus_epsilon_rtd
        = updateAL2 route bus
            (t - (blr.virtual_bus_stop_rtd_time stop
              + blr.schedule_headway * (seqR.length : ℚ)))
            sl.route_bus_epsilon_rtd := by
      simp only [leave_record, BusRunningLog.record_when_rtd,
        StopLog.record_when_bus_rtd, hseqR, Option.getD_some]
    rw [h1]
    exact lookup2AL_updateAL2_self _ _ _ _
  · simp only [holder_departure_record, BusRunningLog.record_when_departure,
      lookup2D, hseqD, Option.getD_some]
  · have h1 : (holder_departure_record hl bld stop route bus t).1.route_stop_departure_bus_id_seq
        = dAppend2 route stop bus hl.route_stop_departure_bus_id_seq := by
      simp only [holder_departure_record, BusRunningLog.record_when_departure,
        HolderLog.record_when_bus_departure, lookup2D, hseqD, Option.getD_some]
    rw [h1, lookup2D_dAppend2, if_pos ⟨rfl, rfl⟩, lookup2D, hseqD]
    rfl
  · show lookupAL route (vbArr.filterMap
        (fun p => (lookupAL stop p.2).map (fun v => (p.1, [v])))) = some [va]
    exact lookupAL_filterMap_seed (lookupAL stop) (fun v => [v]) vbArr route mA va hA1 hA2
  · show lookupAL route (vbArr.filterMap
        (fun p => (lookupAL stop p.2).map (fun _ => (p.1, ["0"])))) = some ["0"]
    exact lookupAL_filterMap_seed (lookupAL stop) (fun _ => ["0"]) vbArr route mA va hA1 hA2
  · have h1 : lookupAL route (StopLog.initLog stop vbArr vbRtd true).route_bus_epsilon_arrival
        = some [("0", (0 : ℚ))] := by
      show lookupAL route (vbArr.filterMap
          (fun p => (lookupAL stop p.2).map (fun _ => (p.1, [("0", (0 : ℚ))])))) = _
      exact lookupAL_filterMap_seed (lookupAL stop) (fun _ => [("0", (0 : ℚ))])
        vbArr route mA va hA1 hA2
    rw [lookup2AL, h1]
    rfl
  · show lookupAL route (vbRtd.filterMap
        (fun p => (lookupAL stop p.2).map (fun v => (p.1, [v])))) = some [vr]
    exact lookupAL_filterMap_seed (lookupAL stop) (fun v => [v]) vbRtd route mR vr hR1 hR2
  · show lookupAL route (vbRtd.filterMap
        (fun p => (lookupAL stop p.2).map (fun _ => (p.1, ["0"])))) = some ["0"]
    exact lookupAL_filterMap_seed (lookupAL stop) (fun _ => ["0"]) vbRtd route mR vr hR1 hR2
  · have h1 : lookupAL route (StopLog.initLog stop vbArr vbRtd true).route_bus_epsilon_rtd
        = some [("0", (0 : ℚ))] := by
      show lookupAL route (vbRtd.filterMap
          (fun p => (lookupAL stop p.2).map (fun _ => (p.1, [("0", (0 : ℚ))])))) = _
      exact lookupAL_filterMap_seed (lookupAL stop) (fun _ => [("0", (0 : ℚ))])
        vbRtd route mR vr hR1 hR2
    rw [lookup2AL, h1]
    rfl
  · show lookup2AL route stop (vbDep.map
        (fun p => (p.1, p.2.map (fun q => (q.1, [q.2]))))) = some [vd]
    rw [lookup2AL, lookupAL_map_values (fun m => m.map (fun q => (q.1, [q.2]))) vbDep route,
      hD1, Option.map_some', Option.some_bind,
      lookupAL_map_values (fun w => [w]) mD stop, hD2]
    rfl
  · show lookup2AL route stop (vbDep.map
        (fun p => (p.1, p.2.map (fun q => (q.1, ["0"]))))) = some ["0"]
    rw [lookup2AL, lookupAL_map_values (fun m => m.map (fun q => (q.1, ["0"]))) vbDep route,
      hD1, Option.map_some', Option.some_bind,
      lookupAL_map_values (fun _ => ["0"]) mD stop, hD2]
    rfl
  · have h1 : lookup2AL route stop
        (HolderLog.initLog vbDep true).route_stop_bus_epsilon_departure
        = some [("0", (0 : ℚ))] := by
      show lookup2AL route stop (vbDep.map
          (fun p => (p.1, p.2.map (fun q => (q.1, [("0", (0 : ℚ))]))))) = _
      rw [lookup2AL,
        lookupAL_map_values (fun m => m.map (fun q => (q.1, [("0", (0 : ℚ))]))) vbDep route,
        hD1, Option.map_some', Option.some_bind,
        lookupAL_map_values (fun _ => [("0", (0 : ℚ))]) mD stop, hD2]
      rfl
    rw [h1]
    rfl

/-- Concrete stop log used by the C6 witness: route r already has the
virtual-bus arrival and rtd entries at times 100. -/
def c6StopLog : StopLog :=
  ⟨[("r", [100])], [("r", ["0"])], [("r", [100])], [("r", ["0"])], [], []⟩

/-- Concrete holder log used by the C6 witness. -/
def c6HolderLog : HolderLog :=
  ⟨[("r", [("s", [100])])], [("r", [("s", ["0"])])], []⟩

/-- Concrete virtual-bus table used by the C6 witness: route r passes stop s
with reference time 50. -/
def c6VB : List (String × List (String × ℚ)) := [("r", [("s", 50)])]

/-- Claim C6 witness: recording arrival, rtd and departure of bus 1 of
route r at stop s at time 400 over logs that already hold one (virtual-bus)
event, with headway 300 and reference time 0, and seeding fresh logs from a
virtual-bus table with reference time 50. -/
theorem C6_epsilon_bookkeeping_witness :
    (lookupAL "r" c6StopLog.route_arrival_time_seq = some [100]
      ∧ lookupAL "r" c6StopLog.route_rtd_bus_id_seq = some ["0"]
      ∧ lookup2AL "r" "s" c6HolderLog.route_stop_departure_bus_id_seq = some ["0"]
      ∧ lookupAL "r" c6VB = some [("s", 50)]
      ∧ lookupAL "s" [(("s" : String), (50 : ℚ))] = some 50)
    ∧ (((enter_stop_record c6StopLog emptyBusLog "r" "1" "s" 400).2.2
        = some (400 - (emptyBusLog.virtual_bus_stop_arrival_time "s"
            + emptyBusLog.schedule_headway * (([(100 : ℚ)].length : ℚ))))
      ∧ lookupAL "r" (enter_stop_record c6StopLog emptyBusLog "r" "1" "s" 400).1.route_arrival_time_seq
        = some ([100] ++ [400])
      ∧ lookup2AL "r" "1"
          (enter_stop_record c6StopLog emptyBusLog "r" "1" "s" 400).1.route_bus_epsilon_arrival
        = some (400 - (emptyBusLog.virtual_bus_stop_arrival_time "s"
            + emptyBusLog.schedule_headway * (([(100 : ℚ)].length : ℚ)))))
    ∧ ((leave_record c6StopLog emptyBusLog "r" "1" "s" 400).2.2
        = some (400 - (emptyBusLog.virtual_bus_stop_rtd_time "s"
            + emptyBusLog.schedule_headway * ((["0"].length : ℚ))))
      ∧ lookupAL "r" (leave_record c6StopLog emptyBusLog "r" "1" "s" 400).1.route_rtd_bus_id_seq
        = some (["0"] ++ ["1"])
      ∧ lookup2AL "r" "1" (leave_record c6StopLog emptyBusLog "r" "1" "s" 400).1.route_bus_epsilon_rtd
        = some (400 - (emptyBusLog.virtual_bus_stop_rtd_time "s"
            + emptyBusLog.schedule_headway * ((["0"].length : ℚ)))))
    ∧ ((holder_departure_record c6HolderLog emptyBusLog "s" "r" "1" 400).2.2
        = some (400 - (emptyBusLog.virtual_bus_stop_departure_time "s"
            + emptyBusLog.schedule_headway * ((["0"].length : ℚ))))
      ∧ lookup2D "r" "s"
          (holder_departure_record c6HolderLog emptyBusLog "s" "r" "1" 400).1.route_stop_departure_bus_id_seq
        = ["0"] ++ ["1"])
    ∧ (lookupAL "r" (StopLog.initLog "s" c6VB c6VB true).route_arrival_time_seq = some [50]
      ∧ lookupAL "r" (StopLog.initLog "s" c6VB c6VB true).route_arrival_bus_id_seq = some ["0"]
      ∧ lookup2AL "r" "0" (StopLog.initLog "s" c6VB c6VB true).route_bus_epsilon_arrival = some 0
      ∧ lookupAL "r" (StopLog.initLog "s" c6VB c6VB true).route_rtd_time_seq = some [50]
      ∧ lookupAL "r" (StopLog.initLog "s" c6VB c6VB true).route_rtd_bus_id_seq = some ["0"]
      ∧ lookup2AL "r" "0" (StopLog.initLog "s" c6VB c6VB true).route_bus_epsilon_rtd = some 0)
    ∧ (lookup2AL "r" "s" (HolderLog.initLog c6VB true).route_stop_departure_time_seq = some [50]
      ∧ lookup2AL "r" "s" (HolderLog.initLog c6VB true).route_stop_departure_bus_id_seq
        = some ["0"]
      ∧ ((lookup2AL "r" "s" (HolderLog.initLog c6VB true).route_stop_bus_epsilon_departure).bind
          (lookupAL "0")) = some 0)) :=
  ⟨⟨rfl, rfl, rfl, rfl, rfl⟩,
    C6_epsilon_bookkeeping c6StopLog emptyBusLog emptyBusLog emptyBusLog c6HolderLog
      "r" "1" "s" 400 [100] ["0"] ["0"] c6VB c6VB c6VB
      [("s", 50)] [("s", 50)] [("s", 50)] 50 50 50
      rfl rfl rfl rfl rfl rfl rfl rfl rfl⟩
